import Mathlib

/-! procnetmon2: per-process network statistics

A shallow embedding of the Go packages `pkg/types`, `internal/process`,
`internal/collector` and of the table and shutdown paths of `internal/bpf`.

Modelling conventions
* `uint64` / `uint32` fields are natural numbers; every Go addition or
  subtraction on them is written with its explicit wrap-around
  (`% 2 ^ 64`, `% 2 ^ 32`).
* A `float64` is the rational number it holds.  Every conversion to `float64`
  and every `float64` division or addition of the rate computation is rounded by
  `f64` (nearest value with a 53-bit significand, ties to even), so the rates
  of the model are the values the program computes.  The values that arise
  there lie in the normal range of `float64`; infinities, NaN and subnormal
  numbers are not modelled.
* A `time.Time` is an integer number of nanoseconds on one time line and a
  `time.Duration` is an `Int` of nanoseconds, saturating at the `int64` bounds
  as `Time.Sub` does.
* A Go map is an association list searched by key; a `nil` map is `none`.
  The order of the list stands for the iteration order of one run.
* A run-time panic is the result `none` of a function returning `Option`.
  Running out of memory is not modelled.
-/

namespace Procnetmon

/-! ## Machine arithmetic -/

/-- Modulus of Go's `uint64`. -/
def U64 : Nat := 2 ^ 64

/-- Modulus of Go's `uint32`. -/
def U32 : Nat := 2 ^ 32

/-- Go `a + b` on `uint64`. -/
def addU64 (a b : Nat) : Nat := (a + b) % U64

/-- Go `a - b` on `uint64` (wraps around below zero). -/
def subU64 (a b : Nat) : Nat := (a % U64 + U64 - b % U64) % U64

/-- Go `a + b` on `uint32`. -/
def addU32 (a b : Nat) : Nat := (a + b) % U32

/-- The integer nearest to `x`, a tie going to the even one. -/
def roundHalfEven (x : Rat) : Int :=
  let whole : Int := x.floor
  let rest : Rat := x - (whole : Rat)
  if rest < 1 / 2 then whole
  else if rest > 1 / 2 then whole + 1
  else if whole % 2 = 0 then whole else whole + 1

/-- Rounding of an exact result to `float64` (IEEE 754 binary64, round to nearest, ties to
even): the significand is scaled into `[2 ^ 52, 2 ^ 53)` and rounded to an integer.  It
is the rounding of a conversion `float64(n)` and of one `float64` operation, for
results in the normal range. -/
def f64 (x : Rat) : Rat :=
  if x = 0 then 0
  else
    let e : Int := Int.log 2 |x| - 52
    let m : Int := roundHalfEven (|x| / (2 : Rat) ^ e)
    (if x < 0 then -1 else 1) * (m : Rat) * (2 : Rat) ^ e

/-! ## Go maps as association lists -/

/-- Map read `m[k]` with the comma-ok flag folded into `Option`. -/
def mapGet {κ ν : Type} [DecidableEq κ] : List (κ × ν) → κ → Option ν
  | [], _ => none
  | (k', v) :: rest, k => if k' = k then some v else mapGet rest k

/-- Map write `m[k] = v`: overwrite the entry when the key is present, add it otherwise. -/
def mapSet {κ ν : Type} [DecidableEq κ] : List (κ × ν) → κ → ν → List (κ × ν)
  | [], k, v => [(k, v)]
  | (k', v') :: rest, k, v =>
    if k' = k then (k, v) :: rest else (k', v') :: mapSet rest k v

/-- Builtin `delete(m, k)`. -/
def mapDelete {κ ν : Type} [DecidableEq κ] : List (κ × ν) → κ → List (κ × ν)
  | [], _ => []
  | (k', v') :: rest, k =>
    if k' = k then mapDelete rest k else (k', v') :: mapDelete rest k

/-- Keys of a map in iteration order. -/
def mapKeys {κ ν : Type} (m : List (κ × ν)) : List κ := m.map Prod.fst

namespace types

/-- Go `types.ConnectionInfo`. -/
structure ConnectionInfo where
  Protocol : String
  LocalAddr : String
  RemoteAddr : String
  State : String
  LastUpdated : Int
deriving DecidableEq, Repr

/-- Go `types.NetworkStats`; `ActiveConns = none` is the nil map. -/
structure NetworkStats where
  BytesIn : Nat
  BytesOut : Nat
  PacketsIn : Nat
  PacketsOut : Nat
  CurrentRateIn : Rat
  CurrentRateOut : Rat
  PeakRateIn : Rat
  PeakRateOut : Rat
  TCPConnections : Nat
  UDPConnections : Nat
  ActiveConns : Option (List (String × ConnectionInfo))
deriving DecidableEq, Repr

/-- The zero value `NetworkStats{}`. -/
def NetworkStats.zero : NetworkStats :=
  { BytesIn := 0, BytesOut := 0, PacketsIn := 0, PacketsOut := 0,
    CurrentRateIn := 0, CurrentRateOut := 0, PeakRateIn := 0, PeakRateOut := 0,
    TCPConnections := 0, UDPConnections := 0, ActiveConns := none }

/-- Go `types.ProcessStats` (the mutex is not part of the value). -/
structure ProcessStats where
  PID : Int
  Comm : String
  StartTime : Int
  Current : NetworkStats
  Peak : NetworkStats
  Total : NetworkStats
deriving DecidableEq, Repr

/-- Go `NewProcessStats`; `now` is the reading of `time.Now()`. -/
def NewProcessStats (pid : Int) (comm : String) (now : Int) : ProcessStats :=
  { PID := pid, Comm := comm, StartTime := now,
    Current := { NetworkStats.zero with ActiveConns := some [] },
    Peak := { NetworkStats.zero with ActiveConns := some [] },
    Total := { NetworkStats.zero with ActiveConns := some [] } }

/-- Go `(*ProcessStats).Update`. -/
def ProcessStats.Update (ps : ProcessStats) (stats : NetworkStats) : ProcessStats :=
  let peak1 : NetworkStats :=
    if stats.CurrentRateIn > ps.Peak.PeakRateIn then
      { ps.Peak with PeakRateIn := stats.CurrentRateIn }
    else ps.Peak
  let peak2 : NetworkStats :=
    if stats.CurrentRateOut > peak1.PeakRateOut then
      { peak1 with PeakRateOut := stats.CurrentRateOut }
    else peak1
  { ps with
    Current := stats
    Peak := peak2
    Total :=
      { ps.Total with
        BytesIn := addU64 ps.Total.BytesIn stats.BytesIn
        BytesOut := addU64 ps.Total.BytesOut stats.BytesOut
        PacketsIn := addU64 ps.Total.PacketsIn stats.PacketsIn
        PacketsOut := addU64 ps.Total.PacketsOut stats.PacketsOut } }

/-- Go `(*ProcessStats).GetStats`: the triple `(Current, Peak, Total)`. -/
def ProcessStats.GetStats (ps : ProcessStats) : NetworkStats × NetworkStats × NetworkStats :=
  (ps.Current, ps.Peak, ps.Total)

/-- A sequence of `Update` calls, applied left to right. -/
def ProcessStats.UpdateAll (ps : ProcessStats) (calls : List NetworkStats) : ProcessStats :=
  calls.foldl ProcessStats.Update ps

/-- Two decimal digits of a number below 100. -/
def twoDigits (n : Nat) : String :=
  if n < 10 then "0" ++ toString n else toString n

/-- Go `fmt.Sprintf("%.2f", x)` for a value `x` that the `float64` holds exactly: the
decimal rounded to the nearest hundredth, a tie going to the even digit. -/
def sprintf2f (x : Rat) : String :=
  let scaled : Rat := |x| * 100
  let whole : Nat := scaled.floor.toNat
  let rest : Rat := scaled - (whole : Rat)
  let hundredths : Nat :=
    if rest < 1 / 2 then whole
    else if rest > 1 / 2 then whole + 1
    else if whole % 2 = 0 then whole else whole + 1
  (if x < 0 then "-" else "") ++ toString (hundredths / 100) ++ "." ++
    twoDigits (hundredths % 100)

/-- Constant `KB` of `FormatRate`: `1 << 10`. -/
def KB : Nat := 1024

/-- Constant `MB` of `FormatRate`: `1 << 20`. -/
def MB : Nat := 1048576

/-- Constant `GB` of `FormatRate`: `1 << 30`. -/
def GB : Nat := 1073741824

/-- Go `FormatRate`. -/
def FormatRate (bytesPerSec : Rat) : String :=
  let bitsPerSec : Rat := bytesPerSec * 8
  if bytesPerSec ≥ (GB : Rat) then sprintf2f (bitsPerSec / ((GB : Rat) * 8)) ++ " Gbps"
  else if bytesPerSec ≥ (MB : Rat) then sprintf2f (bitsPerSec / ((MB : Rat) * 8)) ++ " Mbps"
  else if bytesPerSec ≥ (KB : Rat) then sprintf2f (bitsPerSec / ((KB : Rat) * 8)) ++ " Kbps"
  else sprintf2f bitsPerSec ++ " bps"

end types

/-! ## Standard library pieces used by the program -/

namespace strconv

/-- The two error kinds of `strconv.NumError`. -/
inductive NumError where
  | ErrSyntax
  | ErrRange
deriving DecidableEq, Repr

/-- Digit loop of `strconv.ParseUint(s, 10, 32)`: `n` is the value read so far. -/
def parseUintLoop (maxVal : Nat) : List Char → Nat → Except NumError Nat
  | [], n => .ok n
  | c :: cs, n =>
    if '0'.toNat ≤ c.toNat ∧ c.toNat ≤ '9'.toNat then
      let n1 := n * 10 + (c.toNat - '0'.toNat)
      if n1 > maxVal then .error .ErrRange else parseUintLoop maxVal cs n1
    else .error .ErrSyntax

/-- Go `strconv.ParseUint(s, 10, 32)` on the characters of `s`. -/
def ParseUint32 (cs : List Char) : Except NumError Nat :=
  match cs with
  | [] => .error .ErrSyntax
  | _ => parseUintLoop (U32 - 1) cs 0

/-- Go `strconv.ParseInt(s, 10, 32)`. -/
def ParseInt32 (s : String) : Except NumError Int :=
  match s.toList with
  | [] => .error .ErrSyntax
  | c :: rest =>
    let neg : Bool := c = '-'
    let body : List Char := if c = '+' ∨ c = '-' then rest else c :: rest
    match ParseUint32 body with
    | .error e => .error e
    | .ok un =>
      let cutoff : Nat := 2 ^ 31
      if !neg && decide (un ≥ cutoff) then .error .ErrRange
      else if neg && decide (un > cutoff) then .error .ErrRange
      else .ok (if neg then -(un : Int) else (un : Int))

end strconv

namespace time

/-- Go `t.Sub(u)`: the difference in nanoseconds, saturated to the `int64` range. -/
def Sub (t u : Int) : Int :=
  let d := t - u
  if d > 2 ^ 63 - 1 then 2 ^ 63 - 1
  else if d < -(2 ^ 63) then -(2 ^ 63)
  else d

/-- Go `d.Seconds()` for a duration `d` in nanoseconds:
`sec := d / Second; nsec := d % Second; return float64(sec) + float64(nsec)/1e9`,
with Go's truncating integer division. -/
def Seconds (d : Int) : Rat :=
  let sec : Int := d.tdiv 1000000000
  let nsec : Int := d.tmod 1000000000
  f64 (f64 (sec : Rat) + f64 (f64 (nsec : Rat) / 1000000000))

/-- Go `time.Second`. -/
def Second : Int := 1000000000

end time

/-! ## internal/bpf: the counter table lookup -/

namespace bpf

/-- Go `netmonNetworkStats`, the value layout of the kernel counter table. -/
structure netmonNetworkStats where
  BytesIn : Nat
  BytesOut : Nat
  PacketsIn : Nat
  PacketsOut : Nat
  TcpConnections : Nat
  UdpConnections : Nat
deriving DecidableEq, Repr

/-- What the counter table holds for a key: an entry, no entry, or a table that cannot be
read (for instance through a released handle). -/
inductive LookupResult where
  | found (v : netmonNetworkStats)
  | keyNotExist
  | failed
deriving DecidableEq, Repr

/-- An error value returned by a map call of cilium/ebpf: the sentinel
`ebpf.ErrKeyNotExist` itself, an error of the system call, or an error that wraps another
one (`fmt.Errorf("lookup: %w", err)`). -/
inductive MapError where
  | ErrKeyNotExist
  | errno
  | wrapped (inner : MapError)
deriving DecidableEq, Repr

/-- The library call `(*ebpf.Map).Lookup` of cilium/ebpf on the counter table.  For a key
that is not in the table the library returns the sentinel wrapped in a lookup error
("lookup: key does not exist"), which `errors.Is` recognises and `==` does not. -/
def MapLookup (table : Nat → LookupResult) (key : Nat) : Except MapError netmonNetworkStats :=
  match table key with
  | .found v => .ok v
  | .keyNotExist => .error (.wrapped .ErrKeyNotExist)
  | .failed => .error (.wrapped .errno)

/-- Errors returned by the probe manager. -/
inductive Error where
  | lookupFailed
  | keyNotExist
  | deleteFailed
deriving DecidableEq, Repr

/-- Go `netmonPrograms`: for each loaded program, whether its handle is still open. -/
structure netmonPrograms where
  TcEgress : Bool
  TcIngress : Bool
deriving DecidableEq, Repr

/-- Go `(*netmonPrograms).Close`, that is `_NetmonClose(p.TcEgress, p.TcIngress)`:
both program handles are closed (a `Close` of a handle is taken to succeed; its error
is dropped by `Stop` in any case). -/
def netmonPrograms.Close (_p : netmonPrograms) : netmonPrograms :=
  { TcEgress := false, TcIngress := false }

/-- Go `bpf.NetworkMonitor`.  `Lookup` is the present state of the counter table
`nm.maps.ProcessStats` as seen through its handle (a released handle fails every
lookup); `programs` is the pointer to the loaded programs; `tcIngress` and
`tcEgress` are the link handles (`none` is nil, `some b` a link that is open when `b`). -/
structure NetworkMonitor where
  Lookup : Nat → LookupResult
  programs : Option netmonPrograms := some { TcEgress := true, TcIngress := true }
  tcIngress : Option Bool := none
  tcEgress : Option Bool := none

/-- Go `(*NetworkMonitor).GetProcessStats`: `.ok none` is the pair `(nil, nil)`, returned
when the error of the lookup is `==` to `ebpf.ErrKeyNotExist`. -/
def NetworkMonitor.GetProcessStats (nm : NetworkMonitor) (pid : Nat) :
    Except Error (Option types.NetworkStats) :=
  match MapLookup nm.Lookup pid with
  | .error err => if err = MapError.ErrKeyNotExist then .ok none else .error .lookupFailed
  | .ok stats =>
    .ok (some
      { types.NetworkStats.zero with
        BytesIn := stats.BytesIn
        BytesOut := stats.BytesOut
        PacketsIn := stats.PacketsIn
        PacketsOut := stats.PacketsOut
        TCPConnections := stats.TcpConnections
        UDPConnections := stats.UdpConnections
        ActiveConns := some [] })

/-- Go `(*NetworkMonitor).Stop`: the monitor afterwards and the returned error. -/
def NetworkMonitor.Stop (nm : NetworkMonitor) : NetworkMonitor × Option Error :=
  let tcIngress := nm.tcIngress.map fun _ => false
  let tcEgress := nm.tcEgress.map fun _ => false
  let programs := nm.programs.map fun p => p.Close
  ({ nm with tcIngress := tcIngress, tcEgress := tcEgress, programs := programs }, none)

/-- The library call `(*ebpf.Map).Delete` of cilium/ebpf on the counter table, as the
library documents it: it removes the value of an existing key and "returns
ErrKeyNotExist if the key does not exist".  The result is the table afterwards and
the returned error. -/
def Delete (table : Nat → LookupResult) (key : Nat) : (Nat → LookupResult) × Option Error :=
  match table key with
  | .found _ => (fun k => if k = key then .keyNotExist else table k, none)
  | .keyNotExist => (table, some .keyNotExist)
  | .failed => (table, some .deleteFailed)

/-- Go `(*NetworkMonitor).ClearProcessStats`: the monitor afterwards and the returned error. -/
def NetworkMonitor.ClearProcessStats (nm : NetworkMonitor) (pid : Nat) :
    NetworkMonitor × Option Error :=
  ({ nm with Lookup := (Delete nm.Lookup pid).1 }, (Delete nm.Lookup pid).2)

end bpf

/-! ## internal/process: the registry -/

namespace process

/-- Errors returned by the registry. -/
inductive Error where
  | invalidPIDFormat (e : strconv.NumError)
  | failedToAccess (pid : Int)
  | notMonitored (pid : Int)
deriving DecidableEq, Repr

/-- Go `process.Monitor`: the PID-to-stats map and whether the `stopped` channel is closed. -/
structure Monitor where
  pids : List (Int × types.ProcessStats)
  stopped : Bool
deriving DecidableEq, Repr

/-- Go `process.New`. -/
def New : Monitor := { pids := [], stopped := false }

/-- Go `unicode.IsSpace`: the white space characters of Unicode. -/
def isSpace (c : Char) : Bool :=
  let n := c.toNat
  (9 ≤ n && n ≤ 13) || n = 32 || n = 133 || n = 160 || n = 5760
    || (8192 ≤ n && n ≤ 8202) || n = 8232 || n = 8233 || n = 8239 || n = 8287 || n = 12288

/-- Go `strings.TrimSpace`: leading and trailing white space removed. -/
def TrimSpace (s : String) : String :=
  String.mk ((s.toList.dropWhile isSpace).reverse.dropWhile isSpace).reverse

/-- Go `(*Monitor).getProcessName`; `readComm pid` is the result of reading
`/proc/<pid>/comm` (`none` when `os.ReadFile` fails). -/
def getProcessName (readComm : Int → Option String) (pid : Int) : Option String :=
  match readComm pid with
  | none => none
  | some data => some (TrimSpace data)

/-- Go `(*Monitor).AddProcess`: the registry afterwards and the returned error. -/
def Monitor.AddProcess (m : Monitor) (readComm : Int → Option String) (now : Int)
    (pidStr : String) : Monitor × Option Error :=
  match strconv.ParseInt32 pidStr with
  | .error e => (m, some (.invalidPIDFormat e))
  | .ok pid =>
    match getProcessName readComm pid with
    | none => (m, some (.failedToAccess pid))
    | some comm =>
      ({ m with pids := mapSet m.pids pid (types.NewProcessStats pid comm now) }, none)

/-- Go `(*Monitor).RemoveProcess`. -/
def Monitor.RemoveProcess (m : Monitor) (pid : Int) : Monitor :=
  { m with pids := mapDelete m.pids pid }

/-- Go `(*Monitor).GetMonitoredPIDs`. -/
def Monitor.GetMonitoredPIDs (m : Monitor) : List Int := mapKeys m.pids

/-- Go `(*Monitor).GetProcessStats`. -/
def Monitor.GetProcessStats (m : Monitor) (pid : Int) : Except Error types.ProcessStats :=
  match mapGet m.pids pid with
  | none => .error (.notMonitored pid)
  | some stats => .ok stats

/-- Go `(*Monitor).UpdateStats`: the registry afterwards and the returned error. -/
def Monitor.UpdateStats (m : Monitor) (pid : Int) (stats : types.NetworkStats) :
    Monitor × Option Error :=
  match mapGet m.pids pid with
  | none => (m, some (.notMonitored pid))
  | some procStats => ({ m with pids := mapSet m.pids pid (procStats.Update stats) }, none)

/-- Go `(*Monitor).Stop`, that is `close(m.stopped)`: closing a closed channel panics
(`none`). -/
def Monitor.Stop (m : Monitor) : Option Monitor :=
  if m.stopped then none else some { m with stopped := true }

/-- Go `(*Monitor).checkProcesses`: every monitored PID whose name cannot be read is
deleted from the map. -/
def Monitor.checkProcesses (m : Monitor) (readComm : Int → Option String) : Monitor :=
  { m with
    pids := (mapKeys m.pids).foldl
      (fun pids pid =>
        match getProcessName readComm pid with
        | none => mapDelete pids pid
        | some _ => pids)
      m.pids }

end process

/-! ## internal/collector: sampling, rates and aggregation -/

namespace collector

/-- Go `collector.Config`; `SampleInterval` is a duration in nanoseconds. -/
structure Config where
  SampleInterval : Int
  WindowSize : Int
  Continuous : Bool
deriving DecidableEq, Repr

/-- Go `collector.sample`. -/
structure sample where
  timestamp : Int
  stats : types.NetworkStats
deriving DecidableEq, Repr

/-- Errors returned by the collector. -/
inductive Error where
  | insufficientSamples (pid : Int)
deriving DecidableEq, Repr

/-- Go `collector.Collector`: its configuration, the per-PID sample history and whether
the `stopped` channel is closed.  The registry and the probe manager it points to are
passed to each operation. -/
structure Collector where
  config : Config
  samples : List (Int × List sample)
  stopped : Bool
deriving DecidableEq, Repr

/-- Go `collector.New`. -/
def New (cfg : Config) : Collector :=
  let cfg1 : Config :=
    if cfg.SampleInterval = 0 then { cfg with SampleInterval := time.Second } else cfg
  let cfg2 : Config :=
    if cfg1.WindowSize = 0 then { cfg1 with WindowSize := 10 } else cfg1
  { config := cfg2, samples := [], stopped := false }

/-- Go `(*Collector).Stop`, that is `close(c.stopped)`: closing a closed channel panics
(`none`). -/
def Collector.Stop (c : Collector) : Option Collector :=
  if c.stopped then none else some { c with stopped := true }

/-- Size in bytes of a `collector.sample` on a 64-bit platform: a `time.Time` (24) and a
`types.NetworkStats` (four `uint64`, four `float64`, two `uint32`, one map pointer: 80). -/
def sampleSize : Nat := 104

/-- Constant `maxAlloc` of the Go runtime on 64-bit Linux: `1 << 48`. -/
def maxAlloc : Nat := 2 ^ 48

/-- Whether `make([]sample, 0, capacity)` panics: the run-time check of `makeslice`, which
refuses a negative capacity and a capacity whose size in bytes exceeds `maxAlloc`. -/
def makePanics (capacity : Int) : Bool :=
  decide (capacity < 0) || decide (capacity * (sampleSize : Int) > (maxAlloc : Int))

/-- Lines 105-114 of `updateStats`: append the new sample, then drop the first element
when the slice is longer than `WindowSize`. -/
def retain (windowSize : Int) (samples : List sample) (s : sample) : List sample :=
  let samples1 := samples ++ [s]
  if (samples1.length : Int) > windowSize then samples1.drop 1 else samples1

/-- Lines 116-126 of `updateStats`: set the two current rates of `stats` from the last
two retained samples, when there are two and the elapsed time is positive. -/
def withRates (samples : List sample) (stats : types.NetworkStats) : types.NetworkStats :=
  if samples.length > 1 then
    match samples[samples.length - 1]?, samples[samples.length - 2]? with
    | some latest, some previous =>
      let duration := time.Seconds (time.Sub latest.timestamp previous.timestamp)
      if duration > 0 then
        { stats with
          CurrentRateIn :=
            f64 (f64 (subU64 latest.stats.BytesIn previous.stats.BytesIn : Rat) / duration)
          CurrentRateOut :=
            f64 (f64 (subU64 latest.stats.BytesOut previous.stats.BytesOut : Rat) / duration) }
      else stats
    | _, _ => stats
  else stats

/-- Go conversion `uint32(pid)` of an `int32`. -/
def uint32 (pid : Int) : Nat := (pid % (U32 : Int)).toNat

/-- Body of the `for _, pid := range pids` loop of `updateStats`, for one PID.
The result `none` is a run-time panic: `make` with a capacity it refuses, or the
dereference `*stats` of a nil pointer. -/
def updateStatsStep (bpfMonitor : bpf.NetworkMonitor) (now : Int)
    (st : Collector × process.Monitor) (pid : Int) : Option (Collector × process.Monitor) :=
  let c := st.1
  let procMon := st.2
  match bpfMonitor.GetProcessStats (uint32 pid) with
  | .error _ => some (c, procMon)
  | .ok statsPtr =>
    let initial : Option (List sample) :=
      match mapGet c.samples pid with
      | some samples => some samples
      | none => if makePanics c.config.WindowSize then none else some []
    match initial, statsPtr with
    | none, _ => none
    | _, none => none
    | some samples0, some stats0 =>
      let samples := retain c.config.WindowSize samples0 { timestamp := now, stats := stats0 }
      let stats := withRates samples stats0
      let procMon1 := (procMon.UpdateStats pid stats).1
      some ({ c with samples := mapSet c.samples pid samples }, procMon1)

/-- Go `(*Collector).updateStats`: one sampling tick at time `now`. -/
def Collector.updateStats (c : Collector) (procMon : process.Monitor)
    (bpfMonitor : bpf.NetworkMonitor) (now : Int) : Option (Collector × process.Monitor) :=
  procMon.GetMonitoredPIDs.foldlM (updateStatsStep bpfMonitor now) (c, procMon)

/-- Go `(*Collector).GetRates`: the triple `(in, out, err)`. -/
def Collector.GetRates (c : Collector) (pid : Int) : Rat × Rat × Option Error :=
  match mapGet c.samples pid with
  | none => (0, 0, some (.insufficientSamples pid))
  | some samples =>
    if samples.length < 2 then (0, 0, some (.insufficientSamples pid))
    else
      match samples[samples.length - 1]?, samples[samples.length - 2]? with
      | some latest, some previous =>
        let duration := time.Seconds (time.Sub latest.timestamp previous.timestamp)
        if duration > 0 then
          (f64 (f64 (subU64 latest.stats.BytesIn previous.stats.BytesIn : Rat) / duration),
           f64 (f64 (subU64 latest.stats.BytesOut previous.stats.BytesOut : Rat) / duration),
           none)
        else (0, 0, none)
      | _, _ => (0, 0, none)

/-- Body of the `for pid := range c.samples` loop of `GetAggregatedStats`. -/
def aggregateStep (procMon : process.Monitor) (aggregated : types.NetworkStats) (pid : Int) :
    types.NetworkStats :=
  match procMon.GetProcessStats pid with
  | .error _ => aggregated
  | .ok stats =>
    let current := stats.GetStats.1
    { aggregated with
      BytesIn := addU64 aggregated.BytesIn current.BytesIn
      BytesOut := addU64 aggregated.BytesOut current.BytesOut
      PacketsIn := addU64 aggregated.PacketsIn current.PacketsIn
      PacketsOut := addU64 aggregated.PacketsOut current.PacketsOut
      TCPConnections := addU32 aggregated.TCPConnections current.TCPConnections
      UDPConnections := addU32 aggregated.UDPConnections current.UDPConnections
      ActiveConns :=
        aggregated.ActiveConns.map fun conns =>
          (current.ActiveConns.getD []).foldl (fun acc kv => mapSet acc kv.1 kv.2) conns }

/-- Go `(*Collector).GetAggregatedStats`. -/
def Collector.GetAggregatedStats (c : Collector) (procMon : process.Monitor) :
    types.NetworkStats :=
  (mapKeys c.samples).foldl (aggregateStep procMon)
    { types.NetworkStats.zero with ActiveConns := some [] }

/-- A run of sampling ticks: each tick has its clock reading and the state of the
counter table at that moment. -/
def runTicks (c : Collector) (procMon : process.Monitor) :
    List (Int × bpf.NetworkMonitor) → Option (Collector × process.Monitor)
  | [] => some (c, procMon)
  | (now, bpfMonitor) :: rest =>
    match c.updateStats procMon bpfMonitor now with
    | none => none
    | some (c1, procMon1) => runTicks c1 procMon1 rest

end collector

/-! ## Concrete inputs used in the examples -/

namespace types

/-- A `NetworkStats` carrying only byte counters. -/
def bytesOnly (bytesIn bytesOut : Nat) : NetworkStats :=
  { NetworkStats.zero with BytesIn := bytesIn, BytesOut := bytesOut, ActiveConns := some [] }

/-- A `NetworkStats` carrying only the two current rates. -/
def ratesOnly (rateIn rateOut : Rat) : NetworkStats :=
  { NetworkStats.zero with
    CurrentRateIn := rateIn, CurrentRateOut := rateOut, ActiveConns := some [] }

/-- `x` is the maximum of the list `l`: it occurs in `l` and bounds every element. -/
def IsMaxOf (x : Rat) (l : List Rat) : Prop := x ∈ l ∧ ∀ y ∈ l, y ≤ x

end types

namespace collector

/-- The last `k` elements of a list, in their order. -/
def lastN {α : Type} (k : Nat) (l : List α) : List α := l.drop (l.length - k)

/-- The sample a tick records for `pid`: present when the lookup returns an entry. -/
def sampleOf (pid : Int) (tick : Int × bpf.NetworkMonitor) : Option sample :=
  match tick.2.GetProcessStats (uint32 pid) with
  | .ok (some stats) => some { timestamp := tick.1, stats := stats }
  | _ => none

/-- A counter table in which every PID has the entry `raw`. -/
def tableWith (raw : bpf.netmonNetworkStats) : bpf.NetworkMonitor :=
  { Lookup := fun _ => .found raw }

/-- A counter-table entry carrying `bytesIn` bytes in and nothing else. -/
def rawBytesIn (bytesIn : Nat) : bpf.netmonNetworkStats :=
  { BytesIn := bytesIn, BytesOut := 0, PacketsIn := 0, PacketsOut := 0,
    TcpConnections := 0, UdpConnections := 0 }

/-- A registry monitoring PID 1 only, with a fresh entry. -/
def registryOfOne : process.Monitor :=
  { pids := [(1, types.NewProcessStats 1 "test-process" 0)], stopped := false }

/-- Three ticks one second apart reading 10, 20 and 30 bytes in. -/
def threeTicks : List (Int × bpf.NetworkMonitor) :=
  [(0, tableWith (rawBytesIn 10)), (1000000000, tableWith (rawBytesIn 20)),
   (2000000000, tableWith (rawBytesIn 30))]

/-- The registry records of the PIDs that have a sample history, in the iteration order of
`c.samples`: the processes `GetAggregatedStats` adds up. -/
def trackedStats (c : Collector) (procMon : process.Monitor) : List types.ProcessStats :=
  (mapKeys c.samples).filterMap (fun pid => mapGet procMon.pids pid)

/-- Two ticks one second apart reading 0 and then 1000 bytes in. -/
def twoTicks : List (Int × bpf.NetworkMonitor) :=
  [(0, tableWith (rawBytesIn 0)), (0 + time.Second, tableWith (rawBytesIn 1000))]

/-- A collector holding one sample for each of the PIDs 1 and 2. -/
def collectorOfTwo (bytesIn1 bytesIn2 : Nat) : Collector :=
  { config := { SampleInterval := time.Second, WindowSize := 10, Continuous := true },
    samples :=
      [(1, [{ timestamp := 0, stats := types.bytesOnly bytesIn1 0 }]),
       (2, [{ timestamp := 0, stats := types.bytesOnly bytesIn2 0 }])],
    stopped := false }

/-- A registry monitoring the PIDs 1 and 2, each updated once with the given byte count. -/
def registryOfTwo (bytesIn1 bytesIn2 : Nat) : process.Monitor :=
  { pids :=
      [(1, (types.NewProcessStats 1 "first" 0).Update (types.bytesOnly bytesIn1 0)),
       (2, (types.NewProcessStats 2 "second" 0).Update (types.bytesOnly bytesIn2 0))],
    stopped := false }

/-- A configuration whose window size is `2 ^ 62`. -/
def hugeWindow : Config :=
  { SampleInterval := 0, WindowSize := 4611686018427387904, Continuous := true }

/-- A configuration whose window holds one sample. -/
def windowOfOne : Config :=
  { SampleInterval := 0, WindowSize := 1, Continuous := true }

/-- The default configuration: `New` turns the zero values into one second and ten
samples. -/
def defaultConfig : Config :=
  { SampleInterval := 0, WindowSize := 0, Continuous := true }

/-- A counter table without any entry: every lookup reports that the key does not exist. -/
def emptyTable : bpf.NetworkMonitor :=
  { Lookup := fun _ => .keyNotExist }

/-- A counter table whose only entry is for PID 1, with 10 bytes in. -/
def tableOfOne : bpf.NetworkMonitor :=
  { Lookup := fun k => if k = 1 then .found (rawBytesIn 10) else .keyNotExist }

/-- The connection of the repository test `TestConnectionInfo`, last updated at time 7. -/
def testConn : types.ConnectionInfo :=
  { Protocol := "tcp", LocalAddr := "127.0.0.1:8080", RemoteAddr := "192.168.1.100:45123",
    State := "ESTABLISHED", LastUpdated := 7 }

/-- The `NetworkStats` of `TestConnectionInfo`: only the connection map is set. -/
def testConnStats : types.NetworkStats :=
  { types.NetworkStats.zero with ActiveConns := some [("conn1", testConn)] }

/-- A history of PID 1 whose byte counters go down: 1000 bytes in at `t = 0`, then 0 bytes
in one second later. -/
def decreasingHistory : Collector :=
  { config := { SampleInterval := time.Second, WindowSize := 10, Continuous := true },
    samples :=
      [(1, [{ timestamp := 0, stats := types.bytesOnly 1000 0 },
            { timestamp := 1000000000, stats := types.bytesOnly 0 0 }])],
    stopped := false }

/-- A history of PID 1 with two samples one second apart: 0 bytes in, then 1000 bytes in. -/
def risingHistory : Collector :=
  { config := { SampleInterval := time.Second, WindowSize := 10, Continuous := true },
    samples :=
      [(1, [{ timestamp := 0, stats := types.bytesOnly 0 0 },
            { timestamp := 1000000000, stats := types.bytesOnly 1000 0 }])],
    stopped := false }

end collector

/-! # Theorems -/

/-! ## Rounding to float64 -/

theorem roundHalfEven_intCast (k : Int) : roundHalfEven (k : Rat) = k := by
  have hf : (k : Rat).floor = k := by
    show ⌊(k : Rat)⌋ = k
    exact Int.floor_intCast k
  unfold roundHalfEven
  simp only [hf, sub_self]
  norm_num

theorem roundHalfEven_bounds (x : Rat) :
    (x.floor : Int) ≤ roundHalfEven x ∧ roundHalfEven x ≤ x.floor + 1 := by
  unfold roundHalfEven
  simp only
  split_ifs <;> constructor <;> omega

theorem f64_zero : f64 0 = 0 := by simp [f64]

theorem log_eq_of_bounds (a : Rat) (e : Int) (ha : 0 < a)
    (h1 : (2 : Rat) ^ 52 ≤ a / (2 : Rat) ^ e) (h2 : a / (2 : Rat) ^ e < (2 : Rat) ^ 53) :
    Int.log 2 a = e + 52 := by
  have hp : (0 : Rat) < (2 : Rat) ^ e := zpow_pos (by norm_num) e
  have h1' : ((2 : ℕ) : Rat) ^ (e + 52) ≤ a := by
    rw [le_div_iff₀ hp] at h1
    have : ((2 : ℕ) : Rat) ^ (e + 52) = (2 : Rat) ^ 52 * (2 : Rat) ^ e := by
      rw [zpow_add₀ (by norm_num : ((2 : ℕ) : Rat) ≠ 0)]
      push_cast
      rw [mul_comm]
      norm_cast
    rw [this]; exact h1
  have h2' : a < ((2 : ℕ) : Rat) ^ (e + 53) := by
    rw [div_lt_iff₀ hp] at h2
    have : ((2 : ℕ) : Rat) ^ (e + 53) = (2 : Rat) ^ 53 * (2 : Rat) ^ e := by
      rw [zpow_add₀ (by norm_num : ((2 : ℕ) : Rat) ≠ 0)]
      push_cast
      rw [mul_comm]
      norm_cast
    rw [this]; exact h2
  have l1 := (Int.zpow_le_iff_le_log (by norm_num : 1 < 2) ha).mp h1'
  have l2 := (Int.lt_zpow_iff_log_lt (by norm_num : 1 < 2) ha).mp h2'
  omega

theorem f64_eq_of_bounds (a : Rat) (e : Int) (ha : 0 < a)
    (h1 : (2 : Rat) ^ 52 ≤ a / (2 : Rat) ^ e) (h2 : a / (2 : Rat) ^ e < (2 : Rat) ^ 53) :
    f64 a = (roundHalfEven (a / (2 : Rat) ^ e) : Rat) * (2 : Rat) ^ e := by
  have hlog := log_eq_of_bounds a e ha h1 h2
  have hne : a ≠ 0 := ne_of_gt ha
  have hnn : ¬ a < 0 := not_lt.mpr (le_of_lt ha)
  have habs : |a| = a := abs_of_pos ha
  unfold f64
  simp only [hne, if_false, habs, hlog, hnn]
  have : e + 52 - 52 = e := by omega
  rw [this]
  ring

theorem f64_scaled (m e : Int) (h1 : 2 ^ 52 ≤ m) (h2 : m < 2 ^ 53) :
    f64 ((m : Rat) * (2 : Rat) ^ e) = (m : Rat) * (2 : Rat) ^ e := by
  have hp : (0 : Rat) < (2 : Rat) ^ e := zpow_pos (by norm_num) e
  have hm : (0 : Rat) < (m : Rat) := by
    have : (0 : Int) < m := by omega
    exact_mod_cast this
  have hq : (m : Rat) * (2 : Rat) ^ e / (2 : Rat) ^ e = (m : Rat) := by
    field_simp
  have b1 : (2 : Rat) ^ 52 ≤ (m : Rat) * (2 : Rat) ^ e / (2 : Rat) ^ e := by
    rw [hq]; exact_mod_cast h1
  have b2 : (m : Rat) * (2 : Rat) ^ e / (2 : Rat) ^ e < (2 : Rat) ^ 53 := by
    rw [hq]; exact_mod_cast h2
  rw [f64_eq_of_bounds _ e (mul_pos hm hp) b1 b2, hq, roundHalfEven_intCast]

theorem f64_natCast_of_lt (n : Nat) (h : n < 2 ^ 53) : f64 (n : Rat) = (n : Rat) := by
  rcases Nat.eq_zero_or_pos n with h0 | hpos
  · subst h0; simp [f64]
  · have hne : n ≠ 0 := by omega
    have hL : Nat.log 2 n < 53 := Nat.log_lt_of_lt_pow hne h
    have hlow : 2 ^ Nat.log 2 n ≤ n := Nat.pow_log_le_self 2 hne
    have hhigh : n < 2 ^ (Nat.log 2 n + 1) := Nat.lt_pow_succ_log_self (by norm_num) n
    obtain ⟨k, hk⟩ : ∃ k, Nat.log 2 n + k = 52 := ⟨52 - Nat.log 2 n, by omega⟩
    have e1 : 2 ^ 52 ≤ n * 2 ^ k := by
      calc 2 ^ 52 = 2 ^ Nat.log 2 n * 2 ^ k := by rw [← pow_add, hk]
        _ ≤ n * 2 ^ k := Nat.mul_le_mul_right _ hlow
    have e2 : n * 2 ^ k < 2 ^ 53 := by
      calc n * 2 ^ k < 2 ^ (Nat.log 2 n + 1) * 2 ^ k :=
            Nat.mul_lt_mul_of_pos_right hhigh (by positivity)
        _ = 2 ^ 53 := by rw [← pow_add]; congr 1; omega
    have hs := f64_scaled ((n * 2 ^ k : Nat) : Int) (-(k : Int))
      (by exact_mod_cast e1) (by exact_mod_cast e2)
    have hv : (((n * 2 ^ k : Nat) : Int) : Rat) * (2 : Rat) ^ (-(k : Int)) = (n : Rat) := by
      push_cast
      rw [zpow_neg, zpow_natCast]
      field_simp
    rw [hv] at hs
    exact hs

theorem f64_idem_of_pos (a : Rat) (ha : 0 < a) : f64 (f64 a) = f64 a := by
  have hp : ∀ z : Int, (0 : Rat) < (2 : Rat) ^ z := fun z => zpow_pos (by norm_num) z
  have l1 := Int.zpow_log_le_self (R := Rat) (b := 2) (by norm_num) ha
  have l2 := Int.lt_zpow_succ_log_self (R := Rat) (b := 2) (by norm_num) a
  set L := Int.log 2 a with hL
  have c1 : (2 : Rat) ^ 52 ≤ a / (2 : Rat) ^ (L - 52) := by
    rw [le_div_iff₀ (hp _), ← zpow_natCast (2 : Rat) 52,
      ← zpow_add₀ (by norm_num : (2 : Rat) ≠ 0)]
    have : ((52 : ℕ) : Int) + (L - 52) = L := by omega
    rw [this]
    exact_mod_cast l1
  have c2 : a / (2 : Rat) ^ (L - 52) < (2 : Rat) ^ 53 := by
    rw [div_lt_iff₀ (hp _), ← zpow_natCast (2 : Rat) 53,
      ← zpow_add₀ (by norm_num : (2 : Rat) ≠ 0)]
    have : ((53 : ℕ) : Int) + (L - 52) = L + 1 := by omega
    rw [this]
    exact_mod_cast l2
  have hf := f64_eq_of_bounds a (L - 52) ha c1 c2
  obtain ⟨r1, r2⟩ := roundHalfEven_bounds (a / (2 : Rat) ^ (L - 52))
  have f1 : (2 : Int) ^ 52 ≤ (a / (2 : Rat) ^ (L - 52)).floor := by
    show (2 : Int) ^ 52 ≤ ⌊a / (2 : Rat) ^ (L - 52)⌋
    rw [Int.le_floor]
    exact_mod_cast c1
  have f2 : (a / (2 : Rat) ^ (L - 52)).floor < (2 : Int) ^ 53 := by
    show ⌊a / (2 : Rat) ^ (L - 52)⌋ < (2 : Int) ^ 53
    rw [Int.floor_lt]
    exact_mod_cast c2
  set M := roundHalfEven (a / (2 : Rat) ^ (L - 52)) with hM
  rw [hf]
  by_cases hlt : M < 2 ^ 53
  · exact f64_scaled M (L - 52) (by omega) hlt
  · have hMeq : M = 2 ^ 53 := by omega
    have hre : (M : Rat) * (2 : Rat) ^ (L - 52)
        = (((2 : Int) ^ 52 : Int) : Rat) * (2 : Rat) ^ (L - 52 + 1) := by
      rw [hMeq, zpow_add₀ (by norm_num : (2 : Rat) ≠ 0)]
      push_cast
      ring
    rw [hre]
    exact f64_scaled (2 ^ 52) (L - 52 + 1) (le_refl _) (by norm_num)

theorem f64_idem_natCast (n : Nat) : f64 (f64 (n : Rat)) = f64 (n : Rat) := by
  rcases Nat.eq_zero_or_pos n with h0 | hpos
  · subst h0
    simp [f64_zero]
  · exact f64_idem_of_pos _ (by exact_mod_cast hpos)

theorem Seconds_of_whole (k : Nat) (hk : k < 2 ^ 53) :
    time.Seconds ((k : Int) * 1000000000) = (k : Rat) := by
  have h1 : ((k : Int) * 1000000000).tdiv 1000000000 = (k : Int) := by
    rw [Int.tdiv_eq_ediv (by omega) (by omega)]
    exact Int.mul_ediv_cancel _ (by norm_num)
  have h2 : ((k : Int) * 1000000000).tmod 1000000000 = 0 := by
    rw [Int.tmod_eq_emod (by omega) (by omega)]
    exact Int.mul_emod_left _ _
  unfold time.Seconds
  simp only [h1, h2, Int.cast_natCast, Int.cast_zero, f64_zero, zero_div, add_zero]
  rw [f64_natCast_of_lt k hk, f64_natCast_of_lt k hk]

theorem makePanics_eq_false (capacity : Int) :
    collector.makePanics capacity = false
      ↔ 0 ≤ capacity ∧ capacity * (collector.sampleSize : Int) ≤ (collector.maxAlloc : Int) := by
  unfold collector.makePanics
  simp only [Bool.or_eq_false_iff, decide_eq_false_iff_not, not_lt]

theorem makePanics_of_small (capacity : Int) (h0 : 0 ≤ capacity) (h1 : capacity ≤ 2 ^ 41) :
    collector.makePanics capacity = false := by
  rw [makePanics_eq_false]
  refine ⟨h0, ?_⟩
  have e1 : ((collector.sampleSize : Nat) : Int) = 104 := rfl
  have e2 : ((collector.maxAlloc : Nat) : Int) = 281474976710656 := by
    simp [collector.maxAlloc]
  rw [e1, e2]
  omega

/-! ## Update: totals and peaks -/

namespace types

theorem UpdateAll_nil (ps : ProcessStats) : ps.UpdateAll [] = ps := rfl

theorem UpdateAll_cons (ps : ProcessStats) (s : NetworkStats) (l : List NetworkStats) :
    ps.UpdateAll (s :: l) = (ps.Update s).UpdateAll l := rfl

theorem total_bytesIn_UpdateAll (l : List NetworkStats) :
    ∀ ps : ProcessStats, ps.Total.BytesIn < U64 →
      (ps.UpdateAll l).Total.BytesIn = (ps.Total.BytesIn + (l.map (·.BytesIn)).sum) % U64 := by
  induction l with
  | nil =>
    intro ps h
    simp [UpdateAll_nil, Nat.mod_eq_of_lt h]
  | cons s l ih =>
    intro ps _
    have hlt : (ps.Update s).Total.BytesIn < U64 := by
      simp only [ProcessStats.Update, addU64]
      exact Nat.mod_lt _ (by decide)
    rw [UpdateAll_cons, ih _ hlt]
    simp only [ProcessStats.Update, addU64, List.map_cons, List.sum_cons]
    rw [Nat.add_mod, Nat.mod_mod, ← Nat.add_mod, Nat.add_assoc]

theorem total_bytesOut_UpdateAll (l : List NetworkStats) :
    ∀ ps : ProcessStats, ps.Total.BytesOut < U64 →
      (ps.UpdateAll l).Total.BytesOut = (ps.Total.BytesOut + (l.map (·.BytesOut)).sum) % U64 := by
  induction l with
  | nil =>
    intro ps h
    simp [UpdateAll_nil, Nat.mod_eq_of_lt h]
  | cons s l ih =>
    intro ps _
    have hlt : (ps.Update s).Total.BytesOut < U64 := by
      simp only [ProcessStats.Update, addU64]
      exact Nat.mod_lt _ (by decide)
    rw [UpdateAll_cons, ih _ hlt]
    simp only [ProcessStats.Update, addU64, List.map_cons, List.sum_cons]
    rw [Nat.add_mod, Nat.mod_mod, ← Nat.add_mod, Nat.add_assoc]

/-- C1, as stated, fails: two updates of `2 ^ 63` bytes in each direction leave
`Total.BytesIn = 0` and `Total.BytesOut = 0`, while the supplied values sum to `2 ^ 64`. -/
theorem C1_counterexample :
    ¬ (((NewProcessStats 1234 "test-process" 0).UpdateAll
          [bytesOnly (2 ^ 63) (2 ^ 63), bytesOnly (2 ^ 63) (2 ^ 63)]).GetStats.2.2.BytesIn
        = ([bytesOnly (2 ^ 63) (2 ^ 63), bytesOnly (2 ^ 63) (2 ^ 63)].map (·.BytesIn)).sum) := by
  decide

/-- C1 (amended): after any sequence of `Update` calls on a record made by
`NewProcessStats`, `Total.BytesIn` and `Total.BytesOut` read by `GetStats` equal the sum
of the supplied `BytesIn` / `BytesOut` values modulo `2 ^ 64`; hence they equal the
exact sum whenever that sum is below `2 ^ 64`. -/
theorem C1_total_is_sum_mod (pid : Int) (comm : String) (now : Int) (calls : List NetworkStats) :
    (((NewProcessStats pid comm now).UpdateAll calls).GetStats.2.2.BytesIn
        = (calls.map (·.BytesIn)).sum % 2 ^ 64
      ∧ ((NewProcessStats pid comm now).UpdateAll calls).GetStats.2.2.BytesOut
        = (calls.map (·.BytesOut)).sum % 2 ^ 64)
    ∧ ((calls.map (·.BytesIn)).sum < 2 ^ 64 →
        ((NewProcessStats pid comm now).UpdateAll calls).GetStats.2.2.BytesIn
          = (calls.map (·.BytesIn)).sum)
    ∧ ((calls.map (·.BytesOut)).sum < 2 ^ 64 →
        ((NewProcessStats pid comm now).UpdateAll calls).GetStats.2.2.BytesOut
          = (calls.map (·.BytesOut)).sum) := by
  have hin := total_bytesIn_UpdateAll calls (NewProcessStats pid comm now)
    (by show (0 : Nat) < U64; decide)
  have hout := total_bytesOut_UpdateAll calls (NewProcessStats pid comm now)
    (by show (0 : Nat) < U64; decide)
  have e1 : (NewProcessStats pid comm now).Total.BytesIn = 0 := rfl
  have e2 : (NewProcessStats pid comm now).Total.BytesOut = 0 := rfl
  rw [e1, Nat.zero_add] at hin
  rw [e2, Nat.zero_add] at hout
  have hU : U64 = 2 ^ 64 := rfl
  rw [hU] at hin hout
  refine ⟨⟨hin, hout⟩, ?_, ?_⟩
  · intro h
    simp only [ProcessStats.GetStats]
    rw [hin, Nat.mod_eq_of_lt h]
  · intro h
    simp only [ProcessStats.GetStats]
    rw [hout, Nat.mod_eq_of_lt h]

/-- C1 at the values of the repository's test: 1000 + 2000 in, 2000 + 4000 out. -/
theorem C1_total_is_sum_mod_witness :
    ((NewProcessStats 1234 "test-process" 0).UpdateAll
        [bytesOnly 1000 2000, bytesOnly 2000 4000]).GetStats.2.2.BytesIn = 3000
    ∧ ((NewProcessStats 1234 "test-process" 0).UpdateAll
        [bytesOnly 1000 2000, bytesOnly 2000 4000]).GetStats.2.2.BytesOut = 6000 :=
  ⟨(C1_total_is_sum_mod 1234 "test-process" 0
      [bytesOnly 1000 2000, bytesOnly 2000 4000]).2.1 (by decide),
   (C1_total_is_sum_mod 1234 "test-process" 0
      [bytesOnly 1000 2000, bytesOnly 2000 4000]).2.2 (by decide)⟩

theorem Update_peakRateIn (ps : ProcessStats) (s : NetworkStats) :
    (ps.Update s).Peak.PeakRateIn = max ps.Peak.PeakRateIn s.CurrentRateIn := by
  unfold ProcessStats.Update
  by_cases h1 : s.CurrentRateIn > ps.Peak.PeakRateIn
  · by_cases h2 : s.CurrentRateOut > ps.Peak.PeakRateOut
    · simp [h1, h2, max_eq_right (le_of_lt h1)]
    · simp [h1, h2, max_eq_right (le_of_lt h1)]
  · by_cases h2 : s.CurrentRateOut > ps.Peak.PeakRateOut
    · simp [h1, h2, max_eq_left (not_lt.mp h1)]
    · simp [h1, h2, max_eq_left (not_lt.mp h1)]

theorem Update_peakRateOut (ps : ProcessStats) (s : NetworkStats) :
    (ps.Update s).Peak.PeakRateOut = max ps.Peak.PeakRateOut s.CurrentRateOut := by
  unfold ProcessStats.Update
  by_cases h1 : s.CurrentRateIn > ps.Peak.PeakRateIn
  · by_cases h2 : s.CurrentRateOut > ps.Peak.PeakRateOut
    · simp [h1, h2, max_eq_right (le_of_lt h2)]
    · simp [h1, h2, max_eq_left (not_lt.mp h2)]
  · by_cases h2 : s.CurrentRateOut > ps.Peak.PeakRateOut
    · simp [h1, h2, max_eq_right (le_of_lt h2)]
    · simp [h1, h2, max_eq_left (not_lt.mp h2)]

theorem IsMaxOf_of_max (x a b : Rat) (rest : List Rat) (h : IsMaxOf x (max a b :: rest)) :
    IsMaxOf x (a :: b :: rest) := by
  obtain ⟨hmem, hle⟩ := h
  have hab : max a b ≤ x := hle _ (List.mem_cons_self _ _)
  constructor
  · rcases List.mem_cons.mp hmem with h | h
    · rcases max_choice a b with e | e
      · rw [h, e]; exact List.mem_cons_self _ _
      · rw [h, e]; exact List.mem_cons_of_mem _ (List.mem_cons_self _ _)
    · exact List.mem_cons_of_mem _ (List.mem_cons_of_mem _ h)
  · intro y hy
    rcases List.mem_cons.mp hy with h | h
    · rw [h]; exact le_trans (le_max_left a b) hab
    · rcases List.mem_cons.mp h with h | h
      · rw [h]; exact le_trans (le_max_right a b) hab
      · exact hle y (List.mem_cons_of_mem _ h)

theorem peakRateIn_UpdateAll (l : List NetworkStats) :
    ∀ ps : ProcessStats,
      IsMaxOf (ps.UpdateAll l).Peak.PeakRateIn
        (ps.Peak.PeakRateIn :: l.map (·.CurrentRateIn)) := by
  induction l with
  | nil =>
    intro ps
    simp [UpdateAll_nil, IsMaxOf]
  | cons s l ih =>
    intro ps
    have h := ih (ps.Update s)
    rw [Update_peakRateIn] at h
    rw [UpdateAll_cons, List.map_cons]
    exact IsMaxOf_of_max _ _ _ _ h

theorem peakRateOut_UpdateAll (l : List NetworkStats) :
    ∀ ps : ProcessStats,
      IsMaxOf (ps.UpdateAll l).Peak.PeakRateOut
        (ps.Peak.PeakRateOut :: l.map (·.CurrentRateOut)) := by
  induction l with
  | nil =>
    intro ps
    simp [UpdateAll_nil, IsMaxOf]
  | cons s l ih =>
    intro ps
    have h := ih (ps.Update s)
    rw [Update_peakRateOut] at h
    rw [UpdateAll_cons, List.map_cons]
    exact IsMaxOf_of_max _ _ _ _ h

theorem IsMaxOf_tail (x a : Rat) (l : List Rat) (h : IsMaxOf x (a :: l))
    (hex : ∃ r ∈ l, a ≤ r) : IsMaxOf x l := by
  obtain ⟨hmem, hle⟩ := h
  obtain ⟨r, hr, har⟩ := hex
  refine ⟨?_, fun y hy => hle y (List.mem_cons_of_mem _ hy)⟩
  rcases List.mem_cons.mp hmem with h | h
  · have hrx : r ≤ x := hle r (List.mem_cons_of_mem _ hr)
    have : r = x := le_antisymm hrx (h ▸ har)
    exact this ▸ hr
  · exact h

/-- C2, as stated, fails: one update whose rates are `-1` leaves both peaks at `0`,
which is not the maximum of the rates passed in. -/
theorem C2_counterexample :
    [ratesOnly (-1) (-1)] ≠ [] ∧
    ¬ IsMaxOf ((NewProcessStats 1234 "test-process" 0).UpdateAll
          [ratesOnly (-1) (-1)]).GetStats.2.1.PeakRateIn
        ([ratesOnly (-1) (-1)].map (·.CurrentRateIn)) := by
  refine ⟨by simp, ?_⟩
  have e : ((NewProcessStats 1234 "test-process" 0).UpdateAll
      [ratesOnly (-1) (-1)]).GetStats.2.1.PeakRateIn = 0 := by
    simp only [UpdateAll_cons, UpdateAll_nil, ProcessStats.GetStats, Update_peakRateIn]
    simp [NewProcessStats, NetworkStats.zero, ratesOnly]
  rw [e]
  simp [IsMaxOf, ratesOnly]

/-- C2 (amended): after any sequence of `Update` calls on a record made by
`NewProcessStats`, `Peak.PeakRateIn` is the maximum of `0` and all `CurrentRateIn`
values passed in, and `Peak.PeakRateOut` the maximum of `0` and all `CurrentRateOut`
values passed in; so each peak equals the maximum rate passed in whenever at least one
rate passed in for that direction is non-negative. -/
theorem C2_peak_is_max_with_zero (pid : Int) (comm : String) (now : Int)
    (calls : List NetworkStats) :
    (IsMaxOf ((NewProcessStats pid comm now).UpdateAll calls).GetStats.2.1.PeakRateIn
        (0 :: calls.map (·.CurrentRateIn))
      ∧ IsMaxOf ((NewProcessStats pid comm now).UpdateAll calls).GetStats.2.1.PeakRateOut
        (0 :: calls.map (·.CurrentRateOut)))
    ∧ ((∃ r ∈ calls.map (·.CurrentRateIn), 0 ≤ r) →
        IsMaxOf ((NewProcessStats pid comm now).UpdateAll calls).GetStats.2.1.PeakRateIn
          (calls.map (·.CurrentRateIn)))
    ∧ ((∃ r ∈ calls.map (·.CurrentRateOut), 0 ≤ r) →
        IsMaxOf ((NewProcessStats pid comm now).UpdateAll calls).GetStats.2.1.PeakRateOut
          (calls.map (·.CurrentRateOut))) := by
  have hin := peakRateIn_UpdateAll calls (NewProcessStats pid comm now)
  have hout := peakRateOut_UpdateAll calls (NewProcessStats pid comm now)
  have e1 : (NewProcessStats pid comm now).Peak.PeakRateIn = 0 := rfl
  have e2 : (NewProcessStats pid comm now).Peak.PeakRateOut = 0 := rfl
  rw [e1] at hin
  rw [e2] at hout
  exact ⟨⟨hin, hout⟩, fun h => IsMaxOf_tail _ _ _ hin h, fun h => IsMaxOf_tail _ _ _ hout h⟩

/-- C2 at the values of the repository's test: rates 100 then 150 in, 200 then 250 out. -/
theorem C2_peak_is_max_with_zero_witness :
    IsMaxOf ((NewProcessStats 1234 "test-process" 0).UpdateAll
        [ratesOnly 100 200, ratesOnly 150 250]).GetStats.2.1.PeakRateIn
      ([ratesOnly 100 200, ratesOnly 150 250].map (·.CurrentRateIn))
    ∧ IsMaxOf ((NewProcessStats 1234 "test-process" 0).UpdateAll
        [ratesOnly 100 200, ratesOnly 150 250]).GetStats.2.1.PeakRateOut
      ([ratesOnly 100 200, ratesOnly 150 250].map (·.CurrentRateOut)) :=
  ⟨(C2_peak_is_max_with_zero 1234 "test-process" 0
      [ratesOnly 100 200, ratesOnly 150 250]).2.1
      ⟨100, by simp [ratesOnly], by norm_num⟩,
   (C2_peak_is_max_with_zero 1234 "test-process" 0
      [ratesOnly 100 200, ratesOnly 150 250]).2.2
      ⟨200, by simp [ratesOnly], by norm_num⟩⟩

end types

/-! ## Association lists -/

theorem mapGet_mapSet_self {κ ν : Type} [DecidableEq κ] (m : List (κ × ν)) (k : κ) (v : ν) :
    mapGet (mapSet m k v) k = some v := by
  induction m with
  | nil => simp [mapSet, mapGet]
  | cons kv rest ih =>
    obtain ⟨k', v'⟩ := kv
    by_cases h : k' = k
    · simp [mapSet, mapGet, h]
    · simp [mapSet, mapGet, h, ih]

theorem mapGet_mapSet_of_ne {κ ν : Type} [DecidableEq κ] (m : List (κ × ν)) (k k' : κ) (v : ν)
    (hne : k ≠ k') : mapGet (mapSet m k v) k' = mapGet m k' := by
  induction m with
  | nil => simp [mapSet, mapGet, hne]
  | cons kv rest ih =>
    obtain ⟨k1, v1⟩ := kv
    by_cases h : k1 = k
    · subst h
      simp [mapSet, mapGet, hne]
    · by_cases h2 : k1 = k'
      · subst h2
        simp [mapSet, mapGet, h]
      · simp [mapSet, mapGet, h, h2, ih]

theorem mapKeys_mapSet_of_get {κ ν : Type} [DecidableEq κ] (m : List (κ × ν)) (k : κ) (v w : ν)
    (hget : mapGet m k = some w) : mapKeys (mapSet m k v) = mapKeys m := by
  induction m with
  | nil => simp [mapGet] at hget
  | cons kv rest ih =>
    obtain ⟨k1, v1⟩ := kv
    by_cases h : k1 = k
    · simp [mapSet, mapKeys, h]
    · have hrest : mapGet rest k = some w := by simpa [mapGet, h] using hget
      have := ih hrest
      simp only [mapKeys] at this
      simp [mapSet, mapKeys, h, this]

theorem mapGet_isSome_of_mem_keys {κ ν : Type} [DecidableEq κ] (m : List (κ × ν)) (k : κ)
    (hk : k ∈ mapKeys m) : ∃ v, mapGet m k = some v := by
  induction m with
  | nil => simp [mapKeys] at hk
  | cons kv rest ih =>
    obtain ⟨k1, v1⟩ := kv
    by_cases h : k1 = k
    · exact ⟨v1, by simp [mapGet, h]⟩
    · have hk2 : k ∈ mapKeys rest := by
        simp only [mapKeys, List.map_cons, List.mem_cons] at hk
        rcases hk with hk | hk
        · exact absurd hk.symm h
        · exact hk
      obtain ⟨v, hv⟩ := ih hk2
      exact ⟨v, by simp [mapGet, h, hv]⟩

theorem mem_keys_of_mapGet {κ ν : Type} [DecidableEq κ] (m : List (κ × ν)) (k : κ) (v : ν)
    (hget : mapGet m k = some v) : k ∈ mapKeys m := by
  induction m with
  | nil => simp [mapGet] at hget
  | cons kv rest ih =>
    obtain ⟨k1, v1⟩ := kv
    by_cases h : k1 = k
    · simp [mapKeys, h]
    · have hrest : mapGet rest k = some v := by simpa [mapGet, h] using hget
      have := ih hrest
      simp only [mapKeys] at this
      simp [mapKeys, this]

/-! ## The registry under `UpdateStats` -/

namespace process

theorem UpdateStats_keys (m : Monitor) (pid : Int) (stats : types.NetworkStats) :
    mapKeys (m.UpdateStats pid stats).1.pids = mapKeys m.pids := by
  unfold Monitor.UpdateStats
  cases h : mapGet m.pids pid with
  | none => rfl
  | some ps => exact mapKeys_mapSet_of_get _ _ _ _ h

theorem UpdateStats_get_self (m : Monitor) (pid : Int) (stats : types.NetworkStats) :
    mapGet (m.UpdateStats pid stats).1.pids pid
      = (mapGet m.pids pid).map (fun ps => ps.Update stats) := by
  unfold Monitor.UpdateStats
  cases h : mapGet m.pids pid with
  | none => simp [h]
  | some ps => simp [mapGet_mapSet_self]

theorem UpdateStats_get_of_ne (m : Monitor) (pid q : Int) (stats : types.NetworkStats)
    (hne : pid ≠ q) : mapGet (m.UpdateStats pid stats).1.pids q = mapGet m.pids q := by
  unfold Monitor.UpdateStats
  cases h : mapGet m.pids pid with
  | none => rfl
  | some ps => exact mapGet_mapSet_of_ne _ _ _ _ hne

end process

/-! ## The lookup of the probe manager -/

namespace bpf

theorem GetProcessStats_ne_nil (nm : NetworkMonitor) (pid : Nat) :
    nm.GetProcessStats pid ≠ .ok none := by
  unfold NetworkMonitor.GetProcessStats MapLookup
  cases nm.Lookup pid <;> simp

end bpf

/-! ## One sampling tick, seen from one PID -/

namespace collector

theorem step_failed (bpfMonitor : bpf.NetworkMonitor) (now : Int)
    (st : Collector × process.Monitor) (pid : Int) (e : bpf.Error)
    (hl : bpfMonitor.GetProcessStats (uint32 pid) = .error e) :
    updateStatsStep bpfMonitor now st pid = some st := by
  simp [updateStatsStep, hl]

theorem step_found (bpfMonitor : bpf.NetworkMonitor) (now : Int)
    (st : Collector × process.Monitor) (pid : Int) (stats0 : types.NetworkStats)
    (hl : bpfMonitor.GetProcessStats (uint32 pid) = .ok (some stats0))
    (hw : makePanics st.1.config.WindowSize = false
      ∨ ∃ h, mapGet st.1.samples pid = some h) :
    updateStatsStep bpfMonitor now st pid
      = some
          ({ st.1 with
              samples := mapSet st.1.samples pid
                (retain st.1.config.WindowSize ((mapGet st.1.samples pid).getD [])
                  { timestamp := now, stats := stats0 }) },
           (st.2.UpdateStats pid
              (withRates
                (retain st.1.config.WindowSize ((mapGet st.1.samples pid).getD [])
                  { timestamp := now, stats := stats0 }) stats0)).1) := by
  cases hg : mapGet st.1.samples pid with
  | some h => simp [updateStatsStep, hl, hg]
  | none =>
    rcases hw with hw | ⟨h, hh⟩
    · simp [updateStatsStep, hl, hg, hw]
    · rw [hg] at hh
      exact absurd hh (by simp)

theorem step_cases (bpfMonitor : bpf.NetworkMonitor) (now : Int)
    (st st1 : Collector × process.Monitor) (q : Int)
    (hs : updateStatsStep bpfMonitor now st q = some st1) :
    st1 = st ∨ ∃ samples stats,
      st1 = ({ st.1 with samples := mapSet st.1.samples q samples },
             (st.2.UpdateStats q stats).1) := by
  unfold updateStatsStep at hs
  cases hl : bpfMonitor.GetProcessStats (uint32 q) with
  | error e =>
    rw [hl] at hs
    simp only [Option.some.injEq] at hs
    exact Or.inl hs.symm
  | ok statsPtr =>
    rw [hl] at hs
    cases statsPtr with
    | none =>
      exfalso
      revert hs
      simp only
      split
      · simp
      · simp
      · rename_i heq
        exact absurd heq (by simp)
    | some stats0 =>
      revert hs
      simp only
      split
      · simp
      · simp
      · intro hs
        simp only [Option.some.injEq] at hs
        exact Or.inr ⟨_, _, hs.symm⟩

theorem step_config (bpfMonitor : bpf.NetworkMonitor) (now : Int)
    (st st1 : Collector × process.Monitor) (q : Int)
    (hs : updateStatsStep bpfMonitor now st q = some st1) :
    st1.1.config = st.1.config ∧ mapKeys st1.2.pids = mapKeys st.2.pids := by
  rcases step_cases bpfMonitor now st st1 q hs with h | ⟨samples, stats, h⟩
  · rw [h]; exact ⟨rfl, rfl⟩
  · rw [h]; exact ⟨rfl, process.UpdateStats_keys _ _ _⟩

theorem step_other (bpfMonitor : bpf.NetworkMonitor) (now : Int)
    (st st1 : Collector × process.Monitor) (q pid : Int) (hne : q ≠ pid)
    (hs : updateStatsStep bpfMonitor now st q = some st1) :
    mapGet st1.1.samples pid = mapGet st.1.samples pid
      ∧ mapGet st1.2.pids pid = mapGet st.2.pids pid := by
  rcases step_cases bpfMonitor now st st1 q hs with h | ⟨samples, stats, h⟩
  · rw [h]; exact ⟨rfl, rfl⟩
  · rw [h]
    exact ⟨mapGet_mapSet_of_ne _ _ _ _ hne, process.UpdateStats_get_of_ne _ _ _ _ hne⟩

theorem step_found_of_some (bpfMonitor : bpf.NetworkMonitor) (now : Int)
    (st st1 : Collector × process.Monitor) (pid : Int) (stats0 : types.NetworkStats)
    (hl : bpfMonitor.GetProcessStats (uint32 pid) = .ok (some stats0))
    (hs : updateStatsStep bpfMonitor now st pid = some st1) :
    st1 = ({ st.1 with
              samples := mapSet st.1.samples pid
                (retain st.1.config.WindowSize ((mapGet st.1.samples pid).getD [])
                  { timestamp := now, stats := stats0 }) },
           (st.2.UpdateStats pid
              (withRates
                (retain st.1.config.WindowSize ((mapGet st.1.samples pid).getD [])
                  { timestamp := now, stats := stats0 }) stats0)).1) := by
  by_cases hw : makePanics st.1.config.WindowSize = false
      ∨ ∃ h, mapGet st.1.samples pid = some h
  · have := step_found bpfMonitor now st pid stats0 hl hw
    rw [this] at hs
    exact (Option.some.inj hs).symm
  · exfalso
    have hneg : makePanics st.1.config.WindowSize = true := by
      cases hm : makePanics st.1.config.WindowSize with
      | true => rfl
      | false => exact absurd (Or.inl hm) hw
    have hnone : mapGet st.1.samples pid = none := by
      cases hg : mapGet st.1.samples pid with
      | none => rfl
      | some h => exact absurd (Or.inr ⟨h, hg⟩) hw
    simp [updateStatsStep, hl, hnone, hneg] at hs

theorem fold_other (bpfMonitor : bpf.NetworkMonitor) (now : Int) (pid : Int)
    (pids : List Int) (hnot : pid ∉ pids) :
    ∀ st st1 : Collector × process.Monitor,
      pids.foldlM (updateStatsStep bpfMonitor now) st = some st1 →
      st1.1.config = st.1.config ∧ mapKeys st1.2.pids = mapKeys st.2.pids
        ∧ mapGet st1.1.samples pid = mapGet st.1.samples pid
        ∧ mapGet st1.2.pids pid = mapGet st.2.pids pid := by
  induction pids with
  | nil =>
    intro st st1 h
    simp only [List.foldlM_nil, pure, Option.some.injEq] at h
    rw [← h]
    exact ⟨rfl, rfl, rfl, rfl⟩
  | cons q rest ih =>
    intro st st1 h
    rw [List.foldlM_cons] at h
    cases hq : updateStatsStep bpfMonitor now st q with
    | none => rw [hq] at h; simp at h
    | some st2 =>
      rw [hq] at h
      have hne : q ≠ pid := fun e => hnot (e ▸ List.mem_cons_self _ _)
      have hrest : pid ∉ rest := fun hm => hnot (List.mem_cons_of_mem _ hm)
      obtain ⟨a1, a2, a3, a4⟩ := ih hrest st2 st1 h
      obtain ⟨b1, b2⟩ := step_config bpfMonitor now st st2 q hq
      obtain ⟨b3, b4⟩ := step_other bpfMonitor now st st2 q pid hne hq
      exact ⟨a1.trans b1, a2.trans b2, a3.trans b3, a4.trans b4⟩

theorem fold_focus_found (bpfMonitor : bpf.NetworkMonitor) (now : Int) (pid : Int)
    (stats0 : types.NetworkStats)
    (hl : bpfMonitor.GetProcessStats (uint32 pid) = .ok (some stats0))
    (pids : List Int) (hnd : pids.Nodup) (hmem : pid ∈ pids) :
    ∀ st st1 : Collector × process.Monitor,
      pids.foldlM (updateStatsStep bpfMonitor now) st = some st1 →
      st1.1.config = st.1.config ∧ mapKeys st1.2.pids = mapKeys st.2.pids
        ∧ mapGet st1.1.samples pid
            = some (retain st.1.config.WindowSize ((mapGet st.1.samples pid).getD [])
                { timestamp := now, stats := stats0 })
        ∧ mapGet st1.2.pids pid
            = (mapGet st.2.pids pid).map (fun ps => ps.Update
                (withRates
                  (retain st.1.config.WindowSize ((mapGet st.1.samples pid).getD [])
                    { timestamp := now, stats := stats0 }) stats0)) := by
  induction pids with
  | nil => simp at hmem
  | cons q rest ih =>
    intro st st1 h
    rw [List.foldlM_cons] at h
    have hnd2 : rest.Nodup := (List.nodup_cons.mp hnd).2
    have hq_not : q ∉ rest := (List.nodup_cons.mp hnd).1
    cases hq : updateStatsStep bpfMonitor now st q with
    | none => rw [hq] at h; simp at h
    | some st2 =>
      rw [hq] at h
      by_cases hqp : q = pid
      · subst hqp
        have hst2 := step_found_of_some bpfMonitor now st st2 q stats0 hl hq
        obtain ⟨a1, a2, a3, a4⟩ := fold_other bpfMonitor now q rest hq_not st2 st1 h
        obtain ⟨b1, b2⟩ := step_config bpfMonitor now st st2 q hq
        refine ⟨a1.trans b1, a2.trans b2, ?_, ?_⟩
        · rw [a3, hst2]
          exact mapGet_mapSet_self _ _ _
        · rw [a4, hst2]
          exact process.UpdateStats_get_self _ _ _
      · have hmem2 : pid ∈ rest := by
          rcases List.mem_cons.mp hmem with e | e
          · exact absurd e.symm hqp
          · exact e
        obtain ⟨a1, a2, a3, a4⟩ := ih hnd2 hmem2 st2 st1 h
        obtain ⟨b1, b2⟩ := step_config bpfMonitor now st st2 q hq
        obtain ⟨b3, b4⟩ := step_other bpfMonitor now st st2 q pid hqp hq
        refine ⟨a1.trans b1, a2.trans b2, ?_, ?_⟩
        · rw [a3, b1, b3]
        · rw [a4, b1, b3, b4]

theorem fold_focus_failed (bpfMonitor : bpf.NetworkMonitor) (now : Int) (pid : Int)
    (e : bpf.Error) (hl : bpfMonitor.GetProcessStats (uint32 pid) = .error e)
    (pids : List Int) :
    ∀ st st1 : Collector × process.Monitor,
      pids.foldlM (updateStatsStep bpfMonitor now) st = some st1 →
      st1.1.config = st.1.config ∧ mapKeys st1.2.pids = mapKeys st.2.pids
        ∧ mapGet st1.1.samples pid = mapGet st.1.samples pid
        ∧ mapGet st1.2.pids pid = mapGet st.2.pids pid := by
  induction pids with
  | nil =>
    intro st st1 h
    simp only [List.foldlM_nil, pure, Option.some.injEq] at h
    rw [← h]
    exact ⟨rfl, rfl, rfl, rfl⟩
  | cons q rest ih =>
    intro st st1 h
    rw [List.foldlM_cons] at h
    cases hq : updateStatsStep bpfMonitor now st q with
    | none => rw [hq] at h; simp at h
    | some st2 =>
      rw [hq] at h
      obtain ⟨a1, a2, a3, a4⟩ := ih st2 st1 h
      obtain ⟨b1, b2⟩ := step_config bpfMonitor now st st2 q hq
      by_cases hqp : q = pid
      · subst hqp
        have := step_failed bpfMonitor now st q e hl
        rw [this] at hq
        have e2 : st = st2 := Option.some.inj hq
        subst e2
        exact ⟨a1, a2, a3, a4⟩
      · obtain ⟨b3, b4⟩ := step_other bpfMonitor now st st2 q pid hqp hq
        exact ⟨a1.trans b1, a2.trans b2, a3.trans b3, a4.trans b4⟩

theorem fold_total (bpfMonitor : bpf.NetworkMonitor) (now : Int) (pids : List Int) :
    ∀ st : Collector × process.Monitor, makePanics st.1.config.WindowSize = false →
      ∃ st1, pids.foldlM (updateStatsStep bpfMonitor now) st = some st1 := by
  induction pids with
  | nil => intro st _; exact ⟨st, rfl⟩
  | cons q rest ih =>
    intro st hw
    have hstep : ∃ st2, updateStatsStep bpfMonitor now st q = some st2 := by
      cases hl : bpfMonitor.GetProcessStats (uint32 q) with
      | error e => exact ⟨st, step_failed bpfMonitor now st q e hl⟩
      | ok statsPtr =>
        cases statsPtr with
        | none => exact absurd hl (bpf.GetProcessStats_ne_nil bpfMonitor _)
        | some stats0 => exact ⟨_, step_found bpfMonitor now st q stats0 hl (Or.inl hw)⟩
    obtain ⟨st2, hst2⟩ := hstep
    have hcfg := (step_config bpfMonitor now st st2 q hst2).1
    obtain ⟨st1, hst1⟩ := ih st2 (hcfg ▸ hw)
    exact ⟨st1, by rw [List.foldlM_cons, hst2]; exact hst1⟩

/-! ## Rates from the last two samples -/

theorem subU64_of_le (l p : Nat) (hle : p ≤ l) (hl : l < 2 ^ 64) :
    (subU64 l p : Rat) = (l : Rat) - (p : Rat) := by
  have h : subU64 l p = l - p := by
    unfold subU64 U64
    omega
  rw [h, Nat.cast_sub hle]

theorem withRates_short (samples : List sample) (stats : types.NetworkStats)
    (h : samples.length < 2) : withRates samples stats = stats := by
  have : ¬ samples.length > 1 := by omega
  simp [withRates, this]

theorem withRates_pos (samples : List sample) (stats : types.NetworkStats)
    (latest previous : sample) (hlen : 2 ≤ samples.length)
    (h1 : samples[samples.length - 1]? = some latest)
    (h2 : samples[samples.length - 2]? = some previous)
    (hpos : 0 < time.Seconds (time.Sub latest.timestamp previous.timestamp)) :
    withRates samples stats =
      { stats with
        CurrentRateIn := f64 (f64 (subU64 latest.stats.BytesIn previous.stats.BytesIn : Rat)
          / time.Seconds (time.Sub latest.timestamp previous.timestamp))
        CurrentRateOut := f64 (f64 (subU64 latest.stats.BytesOut previous.stats.BytesOut : Rat)
          / time.Seconds (time.Sub latest.timestamp previous.timestamp)) } := by
  have : samples.length > 1 := by omega
  simp [withRates, this, h1, h2, hpos]

theorem withRates_nonpos (samples : List sample) (stats : types.NetworkStats)
    (latest previous : sample) (hlen : 2 ≤ samples.length)
    (h1 : samples[samples.length - 1]? = some latest)
    (h2 : samples[samples.length - 2]? = some previous)
    (hnp : time.Seconds (time.Sub latest.timestamp previous.timestamp) ≤ 0) :
    withRates samples stats = stats := by
  have : samples.length > 1 := by omega
  have hn : ¬ 0 < time.Seconds (time.Sub latest.timestamp previous.timestamp) := not_lt.mpr hnp
  simp [withRates, this, h1, h2, hn]

theorem Seconds_one_second (t0 : Int) :
    time.Seconds (time.Sub (t0 + time.Second) t0) = 1 := by
  have hd : time.Sub (t0 + time.Second) t0 = ((1 : Nat) : Int) * 1000000000 := by
    have : t0 + time.Second - t0 = 1000000000 := by simp [time.Second]
    simp only [time.Sub, this]
    norm_num
  rw [hd, Seconds_of_whole 1 (by norm_num)]
  norm_num

theorem f64_wrapped_near_top : f64 ((18446744073709550616 : Nat) : Rat) = 18446744073709551616 := by
  have h := f64_eq_of_bounds ((18446744073709550616 : Nat) : Rat) 11
    (by norm_num) (by norm_num) (by norm_num)
  rw [h]
  have hr : roundHalfEven (((18446744073709550616 : Nat) : Rat) / (2 : Rat) ^ (11 : Int))
      = 9007199254740992 := by
    have hfl : (((18446744073709550616 : Nat) : Rat) / (2 : Rat) ^ (11 : Int)).floor
        = 9007199254740991 := by
      show ⌊((18446744073709550616 : Nat) : Rat) / (2 : Rat) ^ (11 : Int)⌋ = 9007199254740991
      rw [Int.floor_eq_iff]
      constructor <;> norm_num
    unfold roundHalfEven
    simp only [hfl]
    norm_num
  rw [hr]
  norm_num

theorem GetProcessStats_found (bpfMonitor : bpf.NetworkMonitor) (k : Nat)
    (raw : bpf.netmonNetworkStats) (h : bpfMonitor.Lookup k = .found raw) :
    ∃ stats0 : types.NetworkStats,
      bpfMonitor.GetProcessStats k = .ok (some stats0)
        ∧ stats0.BytesIn = raw.BytesIn ∧ stats0.BytesOut = raw.BytesOut
        ∧ stats0.CurrentRateIn = 0 ∧ stats0.CurrentRateOut = 0 := by
  simp only [bpf.NetworkMonitor.GetProcessStats, bpf.MapLookup, h]
  exact ⟨_, rfl, rfl, rfl, rfl, rfl⟩

theorem GetRates_pos (c : Collector) (pid : Int) (samples : List sample)
    (latest previous : sample) (hget : mapGet c.samples pid = some samples)
    (hlen : 2 ≤ samples.length)
    (h1 : samples[samples.length - 1]? = some latest)
    (h2 : samples[samples.length - 2]? = some previous)
    (hpos : 0 < time.Seconds (time.Sub latest.timestamp previous.timestamp)) :
    c.GetRates pid =
      (f64 (f64 (subU64 latest.stats.BytesIn previous.stats.BytesIn : Rat)
          / time.Seconds (time.Sub latest.timestamp previous.timestamp)),
       f64 (f64 (subU64 latest.stats.BytesOut previous.stats.BytesOut : Rat)
          / time.Seconds (time.Sub latest.timestamp previous.timestamp)),
       none) := by
  have : ¬ samples.length < 2 := by omega
  simp [Collector.GetRates, hget, this, h1, h2, hpos]

theorem GetRates_nonpos (c : Collector) (pid : Int) (samples : List sample)
    (latest previous : sample) (hget : mapGet c.samples pid = some samples)
    (hlen : 2 ≤ samples.length)
    (h1 : samples[samples.length - 1]? = some latest)
    (h2 : samples[samples.length - 2]? = some previous)
    (hnp : time.Seconds (time.Sub latest.timestamp previous.timestamp) ≤ 0) :
    c.GetRates pid = (0, 0, none) := by
  have : ¬ samples.length < 2 := by omega
  have hn : ¬ 0 < time.Seconds (time.Sub latest.timestamp previous.timestamp) := not_lt.mpr hnp
  simp [Collector.GetRates, hget, this, h1, h2, hn]

theorem updateStats_focus_found (c : Collector) (procMon : process.Monitor)
    (bpfMonitor : bpf.NetworkMonitor) (now : Int) (pid : Int) (ps : types.ProcessStats)
    (stats0 : types.NetworkStats) (c1 : Collector) (procMon1 : process.Monitor)
    (hnd : (mapKeys procMon.pids).Nodup) (hps : mapGet procMon.pids pid = some ps)
    (hl : bpfMonitor.GetProcessStats (uint32 pid) = .ok (some stats0))
    (hrun : c.updateStats procMon bpfMonitor now = some (c1, procMon1)) :
    c1.config = c.config ∧ mapKeys procMon1.pids = mapKeys procMon.pids
      ∧ mapGet c1.samples pid
          = some (retain c.config.WindowSize ((mapGet c.samples pid).getD [])
              { timestamp := now, stats := stats0 })
      ∧ mapGet procMon1.pids pid
          = some (ps.Update
              (withRates
                (retain c.config.WindowSize ((mapGet c.samples pid).getD [])
                  { timestamp := now, stats := stats0 }) stats0)) := by
  have hmem : pid ∈ mapKeys procMon.pids := mem_keys_of_mapGet _ _ _ hps
  have h := fold_focus_found bpfMonitor now pid stats0 hl (mapKeys procMon.pids) hnd hmem
    (c, procMon) (c1, procMon1) hrun
  simp only [hps, Option.map_some'] at h
  exact h

/-- C3, as stated, fails when the byte counter of the latest sample is below that of the
previous one: with 1000 bytes in at `t = 0` and 0 bytes in one second later, `GetRates`
returns `2 ^ 64` bytes per second (the `uint64` difference `2 ^ 64 - 1000` converted to
`float64`), not `(0 - 1000) / 1`. -/
theorem C3_counterexample :
    0 < time.Seconds (time.Sub 1000000000 0)
    ∧ (decreasingHistory.GetRates 1).1 = 18446744073709551616
    ∧ (decreasingHistory.GetRates 1).1
        ≠ (((0 : Nat) : Rat) - ((1000 : Nat) : Rat)) / time.Seconds (time.Sub 1000000000 0) := by
  have hone : time.Seconds (time.Sub 1000000000 0) = 1 := by
    have := Seconds_one_second 0
    simpa [time.Second] using this
  have hpos : 0 < time.Seconds (time.Sub 1000000000 0) := by
    rw [hone]; exact one_pos
  have h := GetRates_pos decreasingHistory 1
    [{ timestamp := 0, stats := types.bytesOnly 1000 0 },
     { timestamp := 1000000000, stats := types.bytesOnly 0 0 }]
    { timestamp := 1000000000, stats := types.bytesOnly 0 0 }
    { timestamp := 0, stats := types.bytesOnly 1000 0 }
    rfl (by decide) rfl rfl hpos
  have hsub : subU64 (types.bytesOnly 0 0).BytesIn (types.bytesOnly 1000 0).BytesIn
      = 18446744073709550616 := by decide
  have hv : (decreasingHistory.GetRates 1).1 = 18446744073709551616 := by
    rw [h]
    simp only [hone, div_one, hsub]
    rw [f64_idem_natCast, f64_wrapped_near_top]
  refine ⟨hpos, hv, ?_⟩
  rw [hv, hone]
  norm_num

/-- C3 (amended): from the last two retained samples of a PID, `GetRates` and the sampling
tick `updateStats` compute, for each direction, the rate
`float64((latest.bytes - previous.bytes) mod 2 ^ 64) / elapsed_seconds` in `float64`
arithmetic (the conversion and the quotient are each rounded to `float64`) whenever
`elapsed_seconds > 0`; when `elapsed_seconds <= 0` (and, in the tick, when fewer than two
samples are retained) no division is made and the rate is 0 for both directions.  The
converted difference is exactly `latest.bytes - previous.bytes` whenever
`previous.bytes <= latest.bytes` and the difference is below `2 ^ 53`, so that the rate
is then the quotient `(latest.bytes - previous.bytes) / elapsed_seconds` rounded once. -/
theorem C3_rate_from_last_two_samples :
    (∀ (c : Collector) (pid : Int) (samples : List sample) (latest previous : sample),
        mapGet c.samples pid = some samples → 2 ≤ samples.length →
        samples[samples.length - 1]? = some latest →
        samples[samples.length - 2]? = some previous →
        (0 < time.Seconds (time.Sub latest.timestamp previous.timestamp) →
          c.GetRates pid =
            (f64 (f64 (subU64 latest.stats.BytesIn previous.stats.BytesIn : Rat)
                / time.Seconds (time.Sub latest.timestamp previous.timestamp)),
             f64 (f64 (subU64 latest.stats.BytesOut previous.stats.BytesOut : Rat)
                / time.Seconds (time.Sub latest.timestamp previous.timestamp)),
             none))
        ∧ (time.Seconds (time.Sub latest.timestamp previous.timestamp) ≤ 0 →
          c.GetRates pid = (0, 0, none)))
    ∧ (∀ (c : Collector) (procMon : process.Monitor) (bpfMonitor : bpf.NetworkMonitor)
        (now pid : Int) (ps : types.ProcessStats) (raw : bpf.netmonNetworkStats)
        (c1 : Collector) (procMon1 : process.Monitor),
        (mapKeys procMon.pids).Nodup → mapGet procMon.pids pid = some ps →
        bpfMonitor.Lookup (uint32 pid) = .found raw →
        c.updateStats procMon bpfMonitor now = some (c1, procMon1) →
        ∃ (samples : List sample) (ps1 : types.ProcessStats),
          mapGet c1.samples pid = some samples ∧ mapGet procMon1.pids pid = some ps1
          ∧ (samples.length < 2 →
              ps1.GetStats.1.CurrentRateIn = 0 ∧ ps1.GetStats.1.CurrentRateOut = 0)
          ∧ (∀ latest previous : sample, 2 ≤ samples.length →
              samples[samples.length - 1]? = some latest →
              samples[samples.length - 2]? = some previous →
              (0 < time.Seconds (time.Sub latest.timestamp previous.timestamp) →
                ps1.GetStats.1.CurrentRateIn =
                    f64 (f64 (subU64 latest.stats.BytesIn previous.stats.BytesIn : Rat)
                      / time.Seconds (time.Sub latest.timestamp previous.timestamp))
                ∧ ps1.GetStats.1.CurrentRateOut =
                    f64 (f64 (subU64 latest.stats.BytesOut previous.stats.BytesOut : Rat)
                      / time.Seconds (time.Sub latest.timestamp previous.timestamp)))
              ∧ (time.Seconds (time.Sub latest.timestamp previous.timestamp) ≤ 0 →
                ps1.GetStats.1.CurrentRateIn = 0 ∧ ps1.GetStats.1.CurrentRateOut = 0)))
    ∧ (∀ l p : Nat, p ≤ l → l < 2 ^ 64 → l - p < 2 ^ 53 →
        f64 (subU64 l p : Rat) = (l : Rat) - (p : Rat))
    ∧ (∀ l p : Nat, l < 2 ^ 64 → p < 2 ^ 64 →
        subU64 l p = ((((l : Int) - (p : Int)) % 2 ^ 64 : Int)).toNat) := by
  refine ⟨?_, ?_, ?_, ?_⟩
  · intro c pid samples latest previous hget hlen h1 h2
    exact ⟨GetRates_pos c pid samples latest previous hget hlen h1 h2,
      GetRates_nonpos c pid samples latest previous hget hlen h1 h2⟩
  · intro c procMon bpfMonitor now pid ps raw c1 procMon1 hnd hps hl hrun
    obtain ⟨stats0, hs0, _, _, hr1, hr2⟩ := GetProcessStats_found bpfMonitor _ raw hl
    obtain ⟨_, _, hsam, hreg⟩ :=
      updateStats_focus_found c procMon bpfMonitor now pid ps stats0 c1 procMon1 hnd hps hs0 hrun
    refine ⟨_, _, hsam, hreg, ?_, ?_⟩
    · intro hshort
      rw [withRates_short _ _ hshort]
      exact ⟨hr1, hr2⟩
    · intro latest previous hlen h1 h2
      constructor
      · intro hpos
        rw [withRates_pos _ _ latest previous hlen h1 h2 hpos]
        exact ⟨rfl, rfl⟩
      · intro hnp
        rw [withRates_nonpos _ _ latest previous hlen h1 h2 hnp]
        exact ⟨hr1, hr2⟩
  · intro l p hle hl hsmall
    have h : subU64 l p = l - p := by
      unfold subU64 U64
      omega
    rw [h, f64_natCast_of_lt (l - p) hsmall, Nat.cast_sub hle]
  · intro l p hl hp
    unfold subU64 U64
    omega

/-- C3 at a concrete history: samples of 0 and 1000 bytes in, one second apart, give the
rates 1000 and 0. -/
theorem C3_rate_from_last_two_samples_witness :
    risingHistory.GetRates 1 = (1000, 0, none) := by
  have hone : time.Seconds (time.Sub 1000000000 0) = 1 := by
    have := Seconds_one_second 0
    simpa [time.Second] using this
  have h := (C3_rate_from_last_two_samples.1 risingHistory 1
    [{ timestamp := 0, stats := types.bytesOnly 0 0 },
     { timestamp := 1000000000, stats := types.bytesOnly 1000 0 }]
    { timestamp := 1000000000, stats := types.bytesOnly 1000 0 }
    { timestamp := 0, stats := types.bytesOnly 0 0 }
    rfl (by decide) rfl rfl).1 (by rw [hone]; exact one_pos)
  have hin : subU64 (types.bytesOnly 1000 0).BytesIn (types.bytesOnly 0 0).BytesIn = 1000 := by
    decide
  have hout : subU64 (types.bytesOnly 1000 0).BytesOut (types.bytesOnly 0 0).BytesOut = 0 := by
    decide
  rw [h]
  simp only [hone, div_one, hin, hout]
  rw [f64_idem_natCast, f64_idem_natCast, f64_natCast_of_lt 1000 (by norm_num),
    f64_natCast_of_lt 0 (by norm_num)]
  norm_num

/-! ## The sliding window -/

theorem lastN_length {α : Type} (k : Nat) (l : List α) : (lastN k l).length ≤ k := by
  simp only [lastN, List.length_drop]
  omega

theorem lastN_of_length_le {α : Type} (k : Nat) (l : List α) (h : l.length ≤ k) :
    lastN k l = l := by
  have : l.length - k = 0 := by omega
  simp [lastN, this]

theorem lastN_lastN_append {α : Type} (k : Nat) (X Y : List α) :
    lastN k (lastN k X ++ Y) = lastN k (X ++ Y) := by
  by_cases h : X.length ≤ k
  · rw [lastN_of_length_le k X h]
  · have hlen : (List.drop (X.length - k) X).length = k := by
      rw [List.length_drop]; omega
    simp only [lastN, List.length_append, hlen, List.drop_append_eq_append_drop,
      List.drop_drop]
    have e1 : X.length - k + (k + Y.length - k) = X.length + Y.length - k := by omega
    have e2 : k + Y.length - k - k = X.length + Y.length - k - X.length := by omega
    rw [e1, e2]

theorem retain_eq_lastN (windowSize : Int) (H : List sample) (s : sample)
    (hw : 1 ≤ windowSize) (hH : H.length ≤ windowSize.toNat) :
    retain windowSize H s = lastN windowSize.toNat (H ++ [s]) := by
  unfold retain lastN
  simp only [List.length_append, List.length_singleton]
  by_cases h : ((H.length + 1 : Nat) : Int) > windowSize
  · have e : H.length + 1 - windowSize.toNat = 1 := by omega
    simp only [h, if_true, e]
  · have e : H.length + 1 - windowSize.toNat = 0 := by omega
    simp only [h, if_false, e, List.drop_zero]

theorem sampleOf_found (pid : Int) (tick : Int × bpf.NetworkMonitor)
    (stats0 : types.NetworkStats)
    (h : tick.2.GetProcessStats (uint32 pid) = .ok (some stats0)) :
    sampleOf pid tick = some { timestamp := tick.1, stats := stats0 } := by
  simp [sampleOf, h]

theorem sampleOf_failed (pid : Int) (tick : Int × bpf.NetworkMonitor) (e : bpf.Error)
    (h : tick.2.GetProcessStats (uint32 pid) = .error e) : sampleOf pid tick = none := by
  simp [sampleOf, h]

theorem runTicks_history (pid : Int) (keys : List Int) (hnd : keys.Nodup)
    (hmem : pid ∈ keys) (ticks : List (Int × bpf.NetworkMonitor)) :
    ∀ (c : Collector) (procMon : process.Monitor),
      mapKeys procMon.pids = keys → 1 ≤ c.config.WindowSize →
      makePanics c.config.WindowSize = false →
      ((mapGet c.samples pid).getD []).length ≤ c.config.WindowSize.toNat →
      ∃ (c1 : Collector) (procMon1 : process.Monitor),
        runTicks c procMon ticks = some (c1, procMon1)
          ∧ c1.config = c.config ∧ mapKeys procMon1.pids = keys
          ∧ (mapGet c1.samples pid).getD []
              = lastN c.config.WindowSize.toNat
                  ((mapGet c.samples pid).getD [] ++ ticks.filterMap (sampleOf pid)) := by
  induction ticks with
  | nil =>
    intro c procMon hk _ _ hlen
    refine ⟨c, procMon, rfl, rfl, hk, ?_⟩
    simp only [List.filterMap_nil, List.append_nil]
    exact (lastN_of_length_le _ _ hlen).symm
  | cons t rest ih =>
    intro c procMon hk hw hcap hlen
    obtain ⟨now, bpfMonitor⟩ := t
    obtain ⟨st1, hst1⟩ : ∃ st1, c.updateStats procMon bpfMonitor now = some st1 := by
      have := fold_total bpfMonitor now keys (c, procMon) hcap
      simpa only [Collector.updateStats, process.Monitor.GetMonitoredPIDs, hk] using this
    obtain ⟨c1, procMon1⟩ := st1
    have hfold : keys.foldlM (updateStatsStep bpfMonitor now) (c, procMon)
        = some (c1, procMon1) := by
      simpa only [Collector.updateStats, process.Monitor.GetMonitoredPIDs, hk] using hst1
    have hrun : runTicks c procMon ((now, bpfMonitor) :: rest) = runTicks c1 procMon1 rest := by
      simp only [runTicks, hst1]
    cases hl : bpfMonitor.GetProcessStats (uint32 pid) with
    | error e =>
      obtain ⟨hc, hkeys, hsam, _⟩ :=
        fold_focus_failed bpfMonitor now pid e hl keys (c, procMon) (c1, procMon1) hfold
      simp only at hc hkeys hsam
      obtain ⟨c2, procMon2, hr, hc2, hk2, hh⟩ :=
        ih c1 procMon1 (hkeys.trans hk) (hc ▸ hw) (hc ▸ hcap) (by rw [hsam, hc]; exact hlen)
      refine ⟨c2, procMon2, hrun.trans hr, hc2.trans hc, hk2, ?_⟩
      rw [hh, hsam, hc]
      simp only [List.filterMap_cons, sampleOf_failed pid (now, bpfMonitor) e hl]
    | ok statsPtr =>
      cases statsPtr with
      | none => exact absurd hl (bpf.GetProcessStats_ne_nil bpfMonitor _)
      | some stats0 =>
        obtain ⟨hc, hkeys, hsam, _⟩ :=
          fold_focus_found bpfMonitor now pid stats0 hl keys hnd hmem
            (c, procMon) (c1, procMon1) hfold
        simp only at hc hkeys hsam
        have hret := retain_eq_lastN c.config.WindowSize ((mapGet c.samples pid).getD [])
          { timestamp := now, stats := stats0 } hw hlen
        have hsam2 : (mapGet c1.samples pid).getD []
            = lastN c.config.WindowSize.toNat
                ((mapGet c.samples pid).getD [] ++ [{ timestamp := now, stats := stats0 }]) := by
          rw [hsam, Option.getD_some, hret]
        obtain ⟨c2, procMon2, hr, hc2, hk2, hh⟩ :=
          ih c1 procMon1 (hkeys.trans hk) (hc ▸ hw) (hc ▸ hcap)
            (by rw [hsam2, hc]; exact lastN_length _ _)
        refine ⟨c2, procMon2, hrun.trans hr, hc2.trans hc, hk2, ?_⟩
        rw [hh, hsam2, hc, lastN_lastN_append]
        simp only [List.filterMap_cons, sampleOf_found pid (now, bpfMonitor) stats0 hl,
          List.append_assoc, List.singleton_append]

theorem New_windowSize (cfg : Config) :
    (New cfg).config.WindowSize = if cfg.WindowSize = 0 then 10 else cfg.WindowSize := by
  unfold New
  by_cases h1 : cfg.SampleInterval = 0 <;> by_cases h2 : cfg.WindowSize = 0 <;> simp [h1, h2]

theorem New_makePanics (cfg : Config) (hw : 0 ≤ cfg.WindowSize)
    (hcap : cfg.WindowSize * (sampleSize : Int) ≤ (maxAlloc : Int)) :
    makePanics (New cfg).config.WindowSize = false := by
  rw [New_windowSize, makePanics_eq_false]
  by_cases h : cfg.WindowSize = 0
  · simp only [h, if_true]
    decide
  · simp only [h, if_false]
    exact ⟨hw, hcap⟩

/-- C4, as stated, fails for a large window: a collector built by `New` with
`WindowSize = 2 ^ 62` panics on the first successful sample of PID 1, in
`make([]sample, 0, WindowSize)`, so no history is retained at all. -/
theorem C4_counterexample :
    (0 : Int) ≤ 4611686018427387904
    ∧ (sampleOf 1 (0, tableOfOne)).isSome = true
    ∧ hugeWindow.WindowSize = 4611686018427387904
    ∧ runTicks (New hugeWindow) registryOfOne [(0, tableOfOne)] = none := by
  refine ⟨by decide, rfl, rfl, rfl⟩

/-- C4 (amended): for a collector built by `New` with `WindowSize >= 0` (0 standing for 10)
that `make` accepts as a capacity (`WindowSize * sizeof(sample) <= maxAlloc`), every run
of sampling ticks completes and the history retained for a monitored PID is exactly the
last `min n w` of the `n` samples recorded for it, in the order they were taken; it
never holds more than `w` samples. -/
theorem C4_window_keeps_last_samples (cfg : Config) (hw : 0 ≤ cfg.WindowSize)
    (hcap : cfg.WindowSize * (sampleSize : Int) ≤ (maxAlloc : Int))
    (procMon : process.Monitor) (hnd : (mapKeys procMon.pids).Nodup) (pid : Int)
    (hmem : pid ∈ procMon.GetMonitoredPIDs) (ticks : List (Int × bpf.NetworkMonitor)) :
    ∃ (c1 : Collector) (procMon1 : process.Monitor),
      runTicks (New cfg) procMon ticks = some (c1, procMon1)
        ∧ (mapGet c1.samples pid).getD []
            = lastN (min (ticks.filterMap (sampleOf pid)).length
                (New cfg).config.WindowSize.toNat) (ticks.filterMap (sampleOf pid))
        ∧ ((mapGet c1.samples pid).getD []).length ≤ (New cfg).config.WindowSize.toNat
        ∧ (New cfg).config.WindowSize = (if cfg.WindowSize = 0 then 10 else cfg.WindowSize)
        ∧ 1 ≤ (New cfg).config.WindowSize := by
  have hW := New_windowSize cfg
  have hw1 : 1 ≤ (New cfg).config.WindowSize := by
    rw [hW]
    by_cases h : cfg.WindowSize = 0
    · simp [h]
    · simp only [h, if_false]; omega
  have hempty : mapGet (New cfg).samples pid = none := rfl
  obtain ⟨c1, procMon1, hrun, _, _, hh⟩ :=
    runTicks_history pid (mapKeys procMon.pids) hnd hmem ticks (New cfg) procMon rfl hw1
      (New_makePanics cfg hw hcap) (by rw [hempty]; simp)
  rw [hempty] at hh
  simp only [Option.getD_none, List.nil_append] at hh
  refine ⟨c1, procMon1, hrun, ?_, ?_, hW, hw1⟩
  · rw [hh]
    unfold lastN
    congr 1
    omega
  · rw [hh]
    exact lastN_length _ _

/-- C4 at a window of two and three ticks reading 10, 20 and 30 bytes for PID 1. -/
theorem C4_window_keeps_last_samples_witness :
    ∃ (c1 : Collector) (procMon1 : process.Monitor),
      runTicks (New { SampleInterval := 0, WindowSize := 2, Continuous := true })
          registryOfOne threeTicks = some (c1, procMon1)
        ∧ (mapGet c1.samples 1).getD []
            = lastN (min (threeTicks.filterMap (sampleOf 1)).length
                (New { SampleInterval := 0, WindowSize := 2, Continuous := true }
                  ).config.WindowSize.toNat) (threeTicks.filterMap (sampleOf 1))
        ∧ ((mapGet c1.samples 1).getD []).length
            ≤ (New { SampleInterval := 0, WindowSize := 2, Continuous := true }
                ).config.WindowSize.toNat
        ∧ (New { SampleInterval := 0, WindowSize := 2, Continuous := true }).config.WindowSize
            = (if (2 : Int) = 0 then 10 else 2)
        ∧ 1 ≤ (New { SampleInterval := 0, WindowSize := 2, Continuous := true }
                ).config.WindowSize :=
  C4_window_keeps_last_samples { SampleInterval := 0, WindowSize := 2, Continuous := true }
    (by decide) (by decide) registryOfOne (by decide) 1 (by decide) threeTicks

/-! ## Aggregation -/

theorem aggregateStep_none (procMon : process.Monitor) (agg : types.NetworkStats) (pid : Int)
    (h : mapGet procMon.pids pid = none) : aggregateStep procMon agg pid = agg := by
  simp [aggregateStep, process.Monitor.GetProcessStats, h]

theorem aggregateStep_some (procMon : process.Monitor) (agg : types.NetworkStats) (pid : Int)
    (ps : types.ProcessStats) (h : mapGet procMon.pids pid = some ps) :
    aggregateStep procMon agg pid =
      { agg with
        BytesIn := addU64 agg.BytesIn ps.Current.BytesIn
        BytesOut := addU64 agg.BytesOut ps.Current.BytesOut
        PacketsIn := addU64 agg.PacketsIn ps.Current.PacketsIn
        PacketsOut := addU64 agg.PacketsOut ps.Current.PacketsOut
        TCPConnections := addU32 agg.TCPConnections ps.Current.TCPConnections
        UDPConnections := addU32 agg.UDPConnections ps.Current.UDPConnections
        ActiveConns :=
          agg.ActiveConns.map fun conns =>
            (ps.Current.ActiveConns.getD []).foldl (fun acc kv => mapSet acc kv.1 kv.2) conns } := by
  simp [aggregateStep, process.Monitor.GetProcessStats, h, types.ProcessStats.GetStats]

theorem add_mod_step (m a b s : Nat) : ((a + b) % m + s) % m = (a + (b + s)) % m := by
  rw [Nat.add_mod, Nat.mod_mod, ← Nat.add_mod, Nat.add_assoc]

theorem aggregate_fold_counters (procMon : process.Monitor) (pids : List Int) :
    ∀ agg : types.NetworkStats,
      agg.BytesIn < U64 → agg.BytesOut < U64 → agg.PacketsIn < U64 → agg.PacketsOut < U64 →
      agg.TCPConnections < U32 → agg.UDPConnections < U32 →
      (pids.foldl (aggregateStep procMon) agg).BytesIn
          = (agg.BytesIn + ((pids.filterMap fun pid => mapGet procMon.pids pid).map
              (·.Current.BytesIn)).sum) % U64
      ∧ (pids.foldl (aggregateStep procMon) agg).BytesOut
          = (agg.BytesOut + ((pids.filterMap fun pid => mapGet procMon.pids pid).map
              (·.Current.BytesOut)).sum) % U64
      ∧ (pids.foldl (aggregateStep procMon) agg).PacketsIn
          = (agg.PacketsIn + ((pids.filterMap fun pid => mapGet procMon.pids pid).map
              (·.Current.PacketsIn)).sum) % U64
      ∧ (pids.foldl (aggregateStep procMon) agg).PacketsOut
          = (agg.PacketsOut + ((pids.filterMap fun pid => mapGet procMon.pids pid).map
              (·.Current.PacketsOut)).sum) % U64
      ∧ (pids.foldl (aggregateStep procMon) agg).TCPConnections
          = (agg.TCPConnections + ((pids.filterMap fun pid => mapGet procMon.pids pid).map
              (·.Current.TCPConnections)).sum) % U32
      ∧ (pids.foldl (aggregateStep procMon) agg).UDPConnections
          = (agg.UDPConnections + ((pids.filterMap fun pid => mapGet procMon.pids pid).map
              (·.Current.UDPConnections)).sum) % U32 := by
  induction pids with
  | nil =>
    intro agg h1 h2 h3 h4 h5 h6
    simp [Nat.mod_eq_of_lt, h1, h2, h3, h4, h5, h6]
  | cons q rest ih =>
    intro agg h1 h2 h3 h4 h5 h6
    rw [List.foldl_cons]
    cases hq : mapGet procMon.pids q with
    | none =>
      rw [aggregateStep_none procMon agg q hq]
      simpa only [List.filterMap_cons, hq] using ih agg h1 h2 h3 h4 h5 h6
    | some ps =>
      rw [aggregateStep_some procMon agg q ps hq]
      have p64 : 0 < U64 := by decide
      have p32 : 0 < U32 := by decide
      have := ih
        { agg with
          BytesIn := addU64 agg.BytesIn ps.Current.BytesIn
          BytesOut := addU64 agg.BytesOut ps.Current.BytesOut
          PacketsIn := addU64 agg.PacketsIn ps.Current.PacketsIn
          PacketsOut := addU64 agg.PacketsOut ps.Current.PacketsOut
          TCPConnections := addU32 agg.TCPConnections ps.Current.TCPConnections
          UDPConnections := addU32 agg.UDPConnections ps.Current.UDPConnections
          ActiveConns :=
            agg.ActiveConns.map fun conns =>
              (ps.Current.ActiveConns.getD []).foldl
                (fun acc kv => mapSet acc kv.1 kv.2) conns }
        (Nat.mod_lt _ p64) (Nat.mod_lt _ p64) (Nat.mod_lt _ p64) (Nat.mod_lt _ p64)
        (Nat.mod_lt _ p32) (Nat.mod_lt _ p32)
      simp only [addU64, addU32, add_mod_step] at this
      simpa only [List.filterMap_cons, hq, List.map_cons, List.sum_cons] using this

theorem aggregate_fold_rates (procMon : process.Monitor) (pids : List Int) :
    ∀ agg : types.NetworkStats,
      (pids.foldl (aggregateStep procMon) agg).CurrentRateIn = agg.CurrentRateIn
      ∧ (pids.foldl (aggregateStep procMon) agg).CurrentRateOut = agg.CurrentRateOut := by
  induction pids with
  | nil => intro agg; exact ⟨rfl, rfl⟩
  | cons q rest ih =>
    intro agg
    rw [List.foldl_cons]
    cases hq : mapGet procMon.pids q with
    | none => rw [aggregateStep_none procMon agg q hq]; exact ih agg
    | some ps =>
      rw [aggregateStep_some procMon agg q ps hq]
      exact ih _

theorem mem_keys_mapSet {κ ν : Type} [DecidableEq κ] (m : List (κ × ν)) (k k' : κ) (v : ν) :
    k ∈ mapKeys (mapSet m k' v) ↔ k = k' ∨ k ∈ mapKeys m := by
  induction m with
  | nil => simp [mapSet, mapKeys]
  | cons kv rest ih =>
    obtain ⟨k1, v1⟩ := kv
    by_cases h : k1 = k'
    · subst h
      simp [mapSet, mapKeys]
    · simp only [mapKeys] at ih
      simp only [mapSet, h, if_false, mapKeys, List.map_cons, List.mem_cons, ih]
      tauto

theorem mem_keys_foldl_mapSet {κ ν : Type} [DecidableEq κ] (l : List (κ × ν)) (k : κ) :
    ∀ conns : List (κ × ν),
      k ∈ mapKeys (l.foldl (fun acc kv => mapSet acc kv.1 kv.2) conns)
        ↔ k ∈ mapKeys conns ∨ k ∈ mapKeys l := by
  induction l with
  | nil => intro conns; simp [mapKeys]
  | cons kv rest ih =>
    intro conns
    rw [List.foldl_cons, ih, mem_keys_mapSet]
    simp only [mapKeys, List.map_cons, List.mem_cons]
    tauto

theorem aggregate_fold_conns (procMon : process.Monitor) (pids : List Int) :
    ∀ (agg : types.NetworkStats) (conns : List (String × types.ConnectionInfo)),
      agg.ActiveConns = some conns →
      ∃ conns1, (pids.foldl (aggregateStep procMon) agg).ActiveConns = some conns1
        ∧ ∀ k, k ∈ mapKeys conns1 ↔
            (k ∈ mapKeys conns
              ∨ ∃ ps ∈ pids.filterMap (fun pid => mapGet procMon.pids pid),
                  k ∈ mapKeys (ps.Current.ActiveConns.getD [])) := by
  induction pids with
  | nil =>
    intro agg conns h
    exact ⟨conns, h, fun k => by simp⟩
  | cons q rest ih =>
    intro agg conns h
    rw [List.foldl_cons]
    cases hq : mapGet procMon.pids q with
    | none =>
      rw [aggregateStep_none procMon agg q hq]
      simpa only [List.filterMap_cons, hq] using ih agg conns h
    | some ps =>
      rw [aggregateStep_some procMon agg q ps hq]
      obtain ⟨conns1, h1, h2⟩ := ih
        { agg with
          BytesIn := addU64 agg.BytesIn ps.Current.BytesIn
          BytesOut := addU64 agg.BytesOut ps.Current.BytesOut
          PacketsIn := addU64 agg.PacketsIn ps.Current.PacketsIn
          PacketsOut := addU64 agg.PacketsOut ps.Current.PacketsOut
          TCPConnections := addU32 agg.TCPConnections ps.Current.TCPConnections
          UDPConnections := addU32 agg.UDPConnections ps.Current.UDPConnections
          ActiveConns :=
            agg.ActiveConns.map fun conns =>
              (ps.Current.ActiveConns.getD []).foldl
                (fun acc kv => mapSet acc kv.1 kv.2) conns }
        ((ps.Current.ActiveConns.getD []).foldl (fun acc kv => mapSet acc kv.1 kv.2) conns)
        (by simp [h])
      refine ⟨conns1, h1, fun k => ?_⟩
      rw [h2 k, mem_keys_foldl_mapSet]
      simp only [List.filterMap_cons, hq, List.mem_cons, exists_eq_or_imp]
      tauto

/-- C7: the connection map returned by `GetAggregatedStats` is never nil, and its keys
are exactly the keys present in the `Current` connection map of some tracked PID. -/
theorem C7_aggregated_connections_are_the_union (c : Collector) (procMon : process.Monitor) :
    ∃ conns, (c.GetAggregatedStats procMon).ActiveConns = some conns
      ∧ ∀ k, k ∈ mapKeys conns ↔
          ∃ ps ∈ trackedStats c procMon, ∃ m,
            ps.GetStats.1.ActiveConns = some m ∧ k ∈ mapKeys m := by
  obtain ⟨conns, h1, h2⟩ := aggregate_fold_conns procMon (mapKeys c.samples)
    { types.NetworkStats.zero with ActiveConns := some [] } [] rfl
  refine ⟨conns, h1, fun k => ?_⟩
  rw [h2 k]
  simp only [mapKeys, List.map_nil, List.not_mem_nil, false_or, trackedStats,
    types.ProcessStats.GetStats]
  constructor
  · rintro ⟨ps, hps, hk⟩
    cases hm : ps.Current.ActiveConns with
    | none => rw [hm] at hk; simp at hk
    | some m => rw [hm] at hk; exact ⟨ps, hps, m, hm, hk⟩
  · rintro ⟨ps, hps, m, hm, hk⟩
    exact ⟨ps, hps, by rw [hm]; exact hk⟩

/-- C5, as stated, fails: with two tracked processes whose `Current.BytesIn` is `2 ^ 63`
each, `GetAggregatedStats` returns `BytesIn = 0`, while the two snapshots sum to `2 ^ 64`. -/
theorem C5_counterexample :
    ((collectorOfTwo (2 ^ 63) (2 ^ 63)).GetAggregatedStats
        (registryOfTwo (2 ^ 63) (2 ^ 63))).BytesIn = 0
    ∧ ((trackedStats (collectorOfTwo (2 ^ 63) (2 ^ 63))
          (registryOfTwo (2 ^ 63) (2 ^ 63))).map (·.GetStats.1.BytesIn)).sum = 2 ^ 64
    ∧ ((collectorOfTwo (2 ^ 63) (2 ^ 63)).GetAggregatedStats
        (registryOfTwo (2 ^ 63) (2 ^ 63))).BytesIn
      ≠ ((trackedStats (collectorOfTwo (2 ^ 63) (2 ^ 63))
          (registryOfTwo (2 ^ 63) (2 ^ 63))).map (·.GetStats.1.BytesIn)).sum := by
  decide

/-- C5 (amended): `GetAggregatedStats` returns, for each of `BytesIn`, `BytesOut`,
`PacketsIn` and `PacketsOut`, the sum of that field over the `Current` snapshots of the
tracked processes modulo `2 ^ 64`, and for `TCPConnections` and `UDPConnections` the sum
modulo `2 ^ 32`; so every field is the exact sum whenever the six sums are below their
moduli. -/
theorem C5_aggregated_counters_are_sums_mod (c : Collector) (procMon : process.Monitor) :
    ((c.GetAggregatedStats procMon).BytesIn
        = ((trackedStats c procMon).map (·.GetStats.1.BytesIn)).sum % 2 ^ 64
      ∧ (c.GetAggregatedStats procMon).BytesOut
        = ((trackedStats c procMon).map (·.GetStats.1.BytesOut)).sum % 2 ^ 64
      ∧ (c.GetAggregatedStats procMon).PacketsIn
        = ((trackedStats c procMon).map (·.GetStats.1.PacketsIn)).sum % 2 ^ 64
      ∧ (c.GetAggregatedStats procMon).PacketsOut
        = ((trackedStats c procMon).map (·.GetStats.1.PacketsOut)).sum % 2 ^ 64
      ∧ (c.GetAggregatedStats procMon).TCPConnections
        = ((trackedStats c procMon).map (·.GetStats.1.TCPConnections)).sum % 2 ^ 32
      ∧ (c.GetAggregatedStats procMon).UDPConnections
        = ((trackedStats c procMon).map (·.GetStats.1.UDPConnections)).sum % 2 ^ 32)
    ∧ (((trackedStats c procMon).map (·.GetStats.1.BytesIn)).sum < 2 ^ 64
        ∧ ((trackedStats c procMon).map (·.GetStats.1.BytesOut)).sum < 2 ^ 64
        ∧ ((trackedStats c procMon).map (·.GetStats.1.PacketsIn)).sum < 2 ^ 64
        ∧ ((trackedStats c procMon).map (·.GetStats.1.PacketsOut)).sum < 2 ^ 64
        ∧ ((trackedStats c procMon).map (·.GetStats.1.TCPConnections)).sum < 2 ^ 32
        ∧ ((trackedStats c procMon).map (·.GetStats.1.UDPConnections)).sum < 2 ^ 32 →
      (c.GetAggregatedStats procMon).BytesIn
        = ((trackedStats c procMon).map (·.GetStats.1.BytesIn)).sum
      ∧ (c.GetAggregatedStats procMon).BytesOut
        = ((trackedStats c procMon).map (·.GetStats.1.BytesOut)).sum
      ∧ (c.GetAggregatedStats procMon).PacketsIn
        = ((trackedStats c procMon).map (·.GetStats.1.PacketsIn)).sum
      ∧ (c.GetAggregatedStats procMon).PacketsOut
        = ((trackedStats c procMon).map (·.GetStats.1.PacketsOut)).sum
      ∧ (c.GetAggregatedStats procMon).TCPConnections
        = ((trackedStats c procMon).map (·.GetStats.1.TCPConnections)).sum
      ∧ (c.GetAggregatedStats procMon).UDPConnections
        = ((trackedStats c procMon).map (·.GetStats.1.UDPConnections)).sum) := by
  have p64 : (0 : Nat) < U64 := by decide
  have p32 : (0 : Nat) < U32 := by decide
  obtain ⟨h1, h2, h3, h4, h5, h6⟩ := aggregate_fold_counters procMon (mapKeys c.samples)
    { types.NetworkStats.zero with ActiveConns := some [] } p64 p64 p64 p64 p32 p32
  have e64 : U64 = 2 ^ 64 := rfl
  have e32 : U32 = 2 ^ 32 := rfl
  have z1 : ({ types.NetworkStats.zero with ActiveConns := some [] } :
      types.NetworkStats).BytesIn = 0 := rfl
  have z2 : ({ types.NetworkStats.zero with ActiveConns := some [] } :
      types.NetworkStats).BytesOut = 0 := rfl
  have z3 : ({ types.NetworkStats.zero with ActiveConns := some [] } :
      types.NetworkStats).PacketsIn = 0 := rfl
  have z4 : ({ types.NetworkStats.zero with ActiveConns := some [] } :
      types.NetworkStats).PacketsOut = 0 := rfl
  have z5 : ({ types.NetworkStats.zero with ActiveConns := some [] } :
      types.NetworkStats).TCPConnections = 0 := rfl
  have z6 : ({ types.NetworkStats.zero with ActiveConns := some [] } :
      types.NetworkStats).UDPConnections = 0 := rfl
  rw [z1, Nat.zero_add, e64] at h1
  rw [z2, Nat.zero_add, e64] at h2
  rw [z3, Nat.zero_add, e64] at h3
  rw [z4, Nat.zero_add, e64] at h4
  rw [z5, Nat.zero_add, e32] at h5
  rw [z6, Nat.zero_add, e32] at h6
  have all : (c.GetAggregatedStats procMon).BytesIn
        = ((trackedStats c procMon).map (·.GetStats.1.BytesIn)).sum % 2 ^ 64
      ∧ (c.GetAggregatedStats procMon).BytesOut
        = ((trackedStats c procMon).map (·.GetStats.1.BytesOut)).sum % 2 ^ 64
      ∧ (c.GetAggregatedStats procMon).PacketsIn
        = ((trackedStats c procMon).map (·.GetStats.1.PacketsIn)).sum % 2 ^ 64
      ∧ (c.GetAggregatedStats procMon).PacketsOut
        = ((trackedStats c procMon).map (·.GetStats.1.PacketsOut)).sum % 2 ^ 64
      ∧ (c.GetAggregatedStats procMon).TCPConnections
        = ((trackedStats c procMon).map (·.GetStats.1.TCPConnections)).sum % 2 ^ 32
      ∧ (c.GetAggregatedStats procMon).UDPConnections
        = ((trackedStats c procMon).map (·.GetStats.1.UDPConnections)).sum % 2 ^ 32 :=
    ⟨h1, h2, h3, h4, h5, h6⟩
  refine ⟨all, ?_⟩
  rintro ⟨b1, b2, b3, b4, b5, b6⟩
  obtain ⟨a1, a2, a3, a4, a5, a6⟩ := all
  exact ⟨by rw [a1, Nat.mod_eq_of_lt b1], by rw [a2, Nat.mod_eq_of_lt b2],
    by rw [a3, Nat.mod_eq_of_lt b3], by rw [a4, Nat.mod_eq_of_lt b4],
    by rw [a5, Nat.mod_eq_of_lt b5], by rw [a6, Nat.mod_eq_of_lt b6]⟩

/-- C5 at two tracked processes holding 1000 and 2000 bytes in: the aggregate is 3000. -/
theorem C5_aggregated_counters_are_sums_mod_witness :
    ((collectorOfTwo 1000 2000).GetAggregatedStats (registryOfTwo 1000 2000)).BytesIn
        = 3000 :=
  ((C5_aggregated_counters_are_sums_mod (collectorOfTwo 1000 2000)
      (registryOfTwo 1000 2000)).2 (by decide)).1

theorem GetAggregatedStats_rates (c : Collector) (procMon : process.Monitor) :
    (c.GetAggregatedStats procMon).CurrentRateIn = 0
      ∧ (c.GetAggregatedStats procMon).CurrentRateOut = 0 :=
  aggregate_fold_rates procMon (mapKeys c.samples)
    { types.NetworkStats.zero with ActiveConns := some [] }

/-! ## Two ticks on a single monitored PID -/

theorem retain_nil (windowSize : Int) (s : sample) (hw : 1 ≤ windowSize) :
    retain windowSize [] s = [s] := by
  have h : ¬ (([s] : List sample).length : Int) > windowSize := by
    simp only [List.length_singleton]; omega
  simp only [retain, List.nil_append, h, if_false]

theorem retain_one (windowSize : Int) (s0 s : sample) (hw : 2 ≤ windowSize) :
    retain windowSize [s0] s = [s0, s] := by
  have h : ¬ (([s0, s] : List sample).length : Int) > windowSize := by
    simp only [List.length_cons, List.length_nil]; omega
  simp only [retain, List.singleton_append, h, if_false]

theorem updateStats_single (c : Collector) (pid : Int) (ps : types.ProcessStats)
    (stopped : Bool) (bpfMonitor : bpf.NetworkMonitor) (now : Int)
    (stats0 : types.NetworkStats)
    (hl : bpfMonitor.GetProcessStats (uint32 pid) = .ok (some stats0))
    (hw : makePanics c.config.WindowSize = false) :
    c.updateStats { pids := [(pid, ps)], stopped := stopped } bpfMonitor now
      = some
          ({ c with
              samples := mapSet c.samples pid
                (retain c.config.WindowSize ((mapGet c.samples pid).getD [])
                  { timestamp := now, stats := stats0 }) },
           { pids := [(pid, ps.Update
                (withRates
                  (retain c.config.WindowSize ((mapGet c.samples pid).getD [])
                    { timestamp := now, stats := stats0 }) stats0))],
             stopped := stopped }) := by
  have h := step_found bpfMonitor now (c, { pids := [(pid, ps)], stopped := stopped }) pid
    stats0 hl (Or.inl hw)
  simp only [Collector.updateStats, process.Monitor.GetMonitoredPIDs, mapKeys, List.map_cons,
    List.map_nil, List.foldlM_cons, List.foldlM_nil, h]
  simp [process.Monitor.UpdateStats, mapGet, mapSet]

theorem two_ticks_single (cfg : Config) (hw : cfg.WindowSize = 0 ∨ 2 ≤ cfg.WindowSize)
    (hcap : cfg.WindowSize * (sampleSize : Int) ≤ (maxAlloc : Int))
    (pid : Int) (ps : types.ProcessStats) (stopped : Bool) (t0 : Int)
    (table0 table1 : bpf.NetworkMonitor) (raw0 raw1 : bpf.netmonNetworkStats)
    (h0 : table0.Lookup (uint32 pid) = .found raw0)
    (h1 : table1.Lookup (uint32 pid) = .found raw1)
    (hz : raw0.BytesIn = 0) (hb : raw1.BytesIn < 2 ^ 64) :
    ∃ (c2 : Collector) (stats0 stats1 : types.NetworkStats),
      runTicks (New cfg) { pids := [(pid, ps)], stopped := stopped }
          [(t0, table0), (t0 + time.Second, table1)]
        = some (c2, { pids := [(pid, (ps.Update stats0).Update stats1)], stopped := stopped })
      ∧ mapKeys c2.samples = [pid]
      ∧ stats0.BytesIn = 0 ∧ stats1.BytesIn = raw1.BytesIn
      ∧ stats1.CurrentRateIn = f64 (raw1.BytesIn : Rat) := by
  obtain ⟨stats0, hs0, hb0, _, _, _⟩ := GetProcessStats_found table0 _ raw0 h0
  obtain ⟨stats1, hs1, hb1, _, _, _⟩ := GetProcessStats_found table1 _ raw1 h1
  have hW := New_windowSize cfg
  have hw2 : 2 ≤ (New cfg).config.WindowSize := by
    rw [hW]
    rcases hw with h | h
    · simp [h]
    · have : cfg.WindowSize ≠ 0 := by omega
      simp only [this, if_false]; exact h
  have hmake : makePanics (New cfg).config.WindowSize = false :=
    New_makePanics cfg (by omega) hcap
  have hempty : mapGet (New cfg).samples pid = none := rfl
  have hsamples : (New cfg).samples = [] := rfl
  have tick1 := updateStats_single (New cfg) pid ps stopped table0 t0 stats0 hs0 hmake
  rw [hempty, Option.getD_none, retain_nil _ _ (by omega), withRates_short _ _ (by simp),
    hsamples] at tick1
  have hget1 : mapGet ({ New cfg with
      samples := mapSet [] pid [{ timestamp := t0, stats := stats0 }] } : Collector).samples pid
      = some [{ timestamp := t0, stats := stats0 }] := by
    simp [mapSet, mapGet]
  have tick2 := updateStats_single
    { New cfg with samples := mapSet [] pid [{ timestamp := t0, stats := stats0 }] }
    pid (ps.Update stats0) stopped table1 (t0 + time.Second) stats1 hs1 hmake
  rw [hget1, Option.getD_some] at tick2
  have hret : retain (New cfg).config.WindowSize [{ timestamp := t0, stats := stats0 }]
      { timestamp := t0 + time.Second, stats := stats1 }
      = [{ timestamp := t0, stats := stats0 },
         { timestamp := t0 + time.Second, stats := stats1 }] := retain_one _ _ _ hw2
  dsimp only at tick2
  rw [hret] at tick2
  have hone : time.Seconds (time.Sub (t0 + time.Second) t0) = 1 := Seconds_one_second t0
  have hpos : 0 < time.Seconds (time.Sub (t0 + time.Second) t0) := by
    rw [hone]; exact one_pos
  have hrate := withRates_pos
    [{ timestamp := t0, stats := stats0 }, { timestamp := t0 + time.Second, stats := stats1 }]
    stats1 { timestamp := t0 + time.Second, stats := stats1 }
    { timestamp := t0, stats := stats0 } (by simp) rfl rfl hpos
  dsimp only at hrate
  refine ⟨{ New cfg with
            samples := mapSet (mapSet [] pid [{ timestamp := t0, stats := stats0 }]) pid
              [{ timestamp := t0, stats := stats0 },
               { timestamp := t0 + time.Second, stats := stats1 }] },
          stats0,
          withRates [{ timestamp := t0, stats := stats0 },
            { timestamp := t0 + time.Second, stats := stats1 }] stats1,
          ?_, ?_, hb0.trans hz, ?_, ?_⟩
  · simp only [runTicks, tick1]
    rw [tick2]
  · simp [mapKeys, mapSet]
  · rw [hrate]
    exact hb1
  · rw [hrate]
    have hsub : subU64 stats1.BytesIn stats0.BytesIn = raw1.BytesIn := by
      rw [hb0, hz, hb1]
      unfold subU64 U64
      omega
    simp only [hone, div_one, hsub]
    exact f64_idem_natCast _

/-- C6 fails on the code: after two ticks reading 0 and then 1000 bytes in for the only
monitored PID, its `Current.CurrentRateIn` is 1000 bytes per second, yet
`GetAggregatedStats` returns `CurrentRateIn = 0`: the rates are never added up. -/
theorem C6_aggregated_rates_stay_zero :
    ∃ (c1 : Collector) (procMon1 : process.Monitor),
      runTicks (New { SampleInterval := 0, WindowSize := 0, Continuous := true })
          registryOfOne twoTicks = some (c1, procMon1)
        ∧ (trackedStats c1 procMon1).map (·.GetStats.1.CurrentRateIn) = [1000]
        ∧ (c1.GetAggregatedStats procMon1).CurrentRateIn = 0
        ∧ (c1.GetAggregatedStats procMon1).CurrentRateIn
            ≠ ((trackedStats c1 procMon1).map (·.GetStats.1.CurrentRateIn)).sum := by
  obtain ⟨c2, stats0, stats1, hrun, hkeys, _, _, hrate⟩ :=
    two_ticks_single { SampleInterval := 0, WindowSize := 0, Continuous := true }
      (Or.inl rfl) (by decide) 1 (types.NewProcessStats 1 "test-process" 0) false 0
      (tableWith (rawBytesIn 0)) (tableWith (rawBytesIn 1000)) (rawBytesIn 0) (rawBytesIn 1000)
      rfl rfl rfl (by decide)
  have htracked : (trackedStats c2
      { pids := [(1, ((types.NewProcessStats 1 "test-process" 0).Update stats0).Update stats1)],
        stopped := false }).map (·.GetStats.1.CurrentRateIn) = [1000] := by
    simp only [trackedStats, hkeys, List.filterMap_cons, List.filterMap_nil, mapGet, if_true,
      List.map_cons, List.map_nil, types.ProcessStats.GetStats]
    show [stats1.CurrentRateIn] = [1000]
    have hraw : (rawBytesIn 1000).BytesIn = 1000 := rfl
    rw [hrate, hraw, f64_natCast_of_lt 1000 (by norm_num)]
    norm_num
  have hzero := (GetAggregatedStats_rates c2
    { pids := [(1, ((types.NewProcessStats 1 "test-process" 0).Update stats0).Update stats1)],
      stopped := false }).1
  refine ⟨c2, _, hrun, htracked, hzero, ?_⟩
  rw [hzero, htracked]
  norm_num

theorem f64_above_two_pow_53 :
    f64 ((9007199254740993 : Nat) : Rat) = 9007199254740992 := by
  have h := f64_eq_of_bounds ((9007199254740993 : Nat) : Rat) 1
    (by norm_num) (by norm_num) (by norm_num)
  rw [h]
  have hr : roundHalfEven (((9007199254740993 : Nat) : Rat) / (2 : Rat) ^ (1 : Int))
      = 4503599627370496 := by
    have hfl : (((9007199254740993 : Nat) : Rat) / (2 : Rat) ^ (1 : Int)).floor
        = 4503599627370496 := by
      show ⌊((9007199254740993 : Nat) : Rat) / (2 : Rat) ^ (1 : Int)⌋ = 4503599627370496
      rw [Int.floor_eq_iff]
      constructor <;> norm_num
    unfold roundHalfEven
    simp only [hfl]
    norm_num
  rw [hr]
  norm_num

/-- C8, as stated, fails in two ways.  With a window of one sample the two ticks of the
scenario (`b = 1000`) leave `Current.CurrentRateIn = 0`, because only the latest sample
is retained.  With the default window and `b = 2 ^ 53 + 1` they leave
`Current.CurrentRateIn = 2 ^ 53`, the `float64` nearest to `b`. -/
theorem C8_counterexample :
    (∃ (c2 : Collector) (procMon2 : process.Monitor) (ps : types.ProcessStats),
      runTicks (New windowOfOne) registryOfOne twoTicks = some (c2, procMon2)
        ∧ procMon2.GetProcessStats 1 = .ok ps
        ∧ ps.GetStats.1.CurrentRateIn = 0
        ∧ ps.GetStats.1.CurrentRateIn ≠ ((1000 : Nat) : Rat))
    ∧ (∃ (c2 : Collector) (procMon2 : process.Monitor) (ps : types.ProcessStats),
      runTicks (New defaultConfig) registryOfOne
          [(0, tableWith (rawBytesIn 0)),
           (0 + time.Second, tableWith (rawBytesIn 9007199254740993))] = some (c2, procMon2)
        ∧ procMon2.GetProcessStats 1 = .ok ps
        ∧ ps.GetStats.1.CurrentRateIn = 9007199254740992
        ∧ ps.GetStats.1.CurrentRateIn ≠ ((9007199254740993 : Nat) : Rat)) := by
  constructor
  · refine ⟨_, _, _, rfl, rfl, rfl, ?_⟩
    have h : ∀ x : Rat, x = 0 → x ≠ ((1000 : Nat) : Rat) := by
      intro x hx; rw [hx]; norm_num
    exact h _ rfl
  · obtain ⟨c2, stats0, stats1, hrun, _, _, _, hrate⟩ :=
      two_ticks_single defaultConfig (Or.inl rfl) (by decide) 1
        (types.NewProcessStats 1 "test-process" 0) false 0
        (tableWith (rawBytesIn 0)) (tableWith (rawBytesIn 9007199254740993))
        (rawBytesIn 0) (rawBytesIn 9007199254740993) rfl rfl rfl (by decide)
    have hraw : (rawBytesIn 9007199254740993).BytesIn = 9007199254740993 := rfl
    rw [hraw, f64_above_two_pow_53] at hrate
    refine ⟨c2, _, ((types.NewProcessStats 1 "test-process" 0).Update stats0).Update stats1,
      hrun, ?_, hrate, ?_⟩
    · simp only [process.Monitor.GetProcessStats, mapGet, if_true]
    · show stats1.CurrentRateIn ≠ _
      rw [hrate]
      norm_num

/-- C8 (amended): with only PID A monitored through a fresh registry entry and a collector
built by `New` whose `WindowSize` is 0 (the default 10) or at least 2 and is accepted by
`make` as a capacity, two sampling ticks one second apart that read `bytesIn = 0` and
then `bytesIn = b` complete and leave the registry with `Current.CurrentRateIn =
float64(b)` bytes per second, which is `b` whenever `b < 2 ^ 53` (the scenario has
`b = 1000`), and with `Total.BytesIn = b` for PID A. -/
theorem C8_two_ticks_rate_and_total (cfg : Config)
    (hw : cfg.WindowSize = 0 ∨ 2 ≤ cfg.WindowSize)
    (hcap : cfg.WindowSize * (sampleSize : Int) ≤ (maxAlloc : Int))
    (pidA : Int) (comm : String) (start t0 : Int)
    (table0 table1 : bpf.NetworkMonitor) (raw0 raw1 : bpf.netmonNetworkStats) (b : Nat)
    (hb : b < 2 ^ 64)
    (h0 : table0.Lookup (uint32 pidA) = .found raw0) (hz : raw0.BytesIn = 0)
    (h1 : table1.Lookup (uint32 pidA) = .found raw1) (hb1 : raw1.BytesIn = b) :
    ∃ (c2 : Collector) (procMon2 : process.Monitor) (ps : types.ProcessStats),
      runTicks (New cfg)
          { pids := [(pidA, types.NewProcessStats pidA comm start)], stopped := false }
          [(t0, table0), (t0 + time.Second, table1)] = some (c2, procMon2)
        ∧ procMon2.GetMonitoredPIDs = [pidA]
        ∧ procMon2.GetProcessStats pidA = .ok ps
        ∧ ps.GetStats.1.CurrentRateIn = f64 (b : Rat)
        ∧ (b < 2 ^ 53 → ps.GetStats.1.CurrentRateIn = (b : Rat))
        ∧ ps.GetStats.2.2.BytesIn = b := by
  obtain ⟨c2, stats0, stats1, hrun, _, hs0, hs1, hrate⟩ :=
    two_ticks_single cfg hw hcap pidA (types.NewProcessStats pidA comm start) false t0
      table0 table1 raw0 raw1 h0 h1 hz (hb1 ▸ hb)
  have hr : stats1.CurrentRateIn = f64 (b : Rat) := by rw [hrate, hb1]
  refine ⟨c2, _, ((types.NewProcessStats pidA comm start).Update stats0).Update stats1,
    hrun, rfl, ?_, hr, ?_, ?_⟩
  · simp only [process.Monitor.GetProcessStats, mapGet, if_true]
  · intro hsmall
    show stats1.CurrentRateIn = (b : Rat)
    rw [hr, f64_natCast_of_lt b hsmall]
  · show addU64 (addU64 0 stats0.BytesIn) stats1.BytesIn = b
    rw [hs0, hs1, hb1]
    have hU : U64 = 2 ^ 64 := rfl
    simp only [addU64, Nat.add_zero, Nat.zero_mod, Nat.zero_add, hU]
    exact Nat.mod_eq_of_lt hb

/-- C8 at the scenario of the specification: PID 1, `b = 1000`, default window: the rate
is 1000 bytes per second and the total 1000 bytes. -/
theorem C8_two_ticks_rate_and_total_witness :
    ∃ (c2 : Collector) (procMon2 : process.Monitor) (ps : types.ProcessStats),
      runTicks (New defaultConfig)
          { pids := [(1, types.NewProcessStats 1 "test-process" 0)], stopped := false }
          [(0, tableWith (rawBytesIn 0)), (0 + time.Second, tableWith (rawBytesIn 1000))]
        = some (c2, procMon2)
        ∧ procMon2.GetProcessStats 1 = .ok ps
        ∧ ps.GetStats.1.CurrentRateIn = ((1000 : Nat) : Rat)
        ∧ ps.GetStats.2.2.BytesIn = 1000 := by
  obtain ⟨c2, procMon2, ps, hrun, _, hget, _, hsmall, htotal⟩ :=
    C8_two_ticks_rate_and_total defaultConfig (Or.inl rfl) (by decide) 1 "test-process" 0 0
      (tableWith (rawBytesIn 0)) (tableWith (rawBytesIn 1000))
      (rawBytesIn 0) (rawBytesIn 1000) 1000 (by decide) rfl rfl rfl rfl
  exact ⟨c2, procMon2, ps, hrun, hget, hsmall (by norm_num), htotal⟩

/-! ## GetRates: insufficient data -/

theorem GetRates_short (c : Collector) (pid : Int)
    (h : ((mapGet c.samples pid).getD []).length < 2) :
    c.GetRates pid = (0, 0, some (.insufficientSamples pid)) := by
  cases hg : mapGet c.samples pid with
  | none => simp [Collector.GetRates, hg]
  | some samples =>
    rw [hg, Option.getD_some] at h
    simp [Collector.GetRates, hg, h]

theorem GetRates_enough (c : Collector) (pid : Int)
    (h : 2 ≤ ((mapGet c.samples pid).getD []).length) : (c.GetRates pid).2.2 = none := by
  cases hg : mapGet c.samples pid with
  | none => rw [hg] at h; simp at h
  | some samples =>
    rw [hg, Option.getD_some] at h
    have b1 : samples.length - 1 < samples.length := by omega
    have b2 : samples.length - 2 < samples.length := by omega
    have h1 : samples[samples.length - 1]? = some (samples[samples.length - 1]) :=
      List.getElem?_eq_getElem b1
    have h2 : samples[samples.length - 2]? = some (samples[samples.length - 2]) :=
      List.getElem?_eq_getElem b2
    by_cases hd : 0 < time.Seconds (time.Sub (samples[samples.length - 1]).timestamp
        (samples[samples.length - 2]).timestamp)
    · rw [GetRates_pos c pid samples _ _ hg h h1 h2 hd]
    · rw [GetRates_nonpos c pid samples _ _ hg h h1 h2 (not_lt.mp hd)]

/-- C9: `GetRates(pid)` returns an error exactly when fewer than two samples are retained
for the PID (a PID without history counts as having none); the error is the
insufficient-samples error and both rates are then 0; with two or more samples no error
is returned. -/
theorem C9_GetRates_fails_iff_fewer_than_two (c : Collector) (pid : Int) :
    ((c.GetRates pid).2.2 ≠ none ↔ ((mapGet c.samples pid).getD []).length < 2)
    ∧ (((mapGet c.samples pid).getD []).length < 2 →
        c.GetRates pid = (0, 0, some (.insufficientSamples pid)))
    ∧ (mapGet c.samples pid = none →
        c.GetRates pid = (0, 0, some (.insufficientSamples pid)))
    ∧ (2 ≤ ((mapGet c.samples pid).getD []).length → (c.GetRates pid).2.2 = none) := by
  refine ⟨⟨?_, ?_⟩, GetRates_short c pid, ?_, GetRates_enough c pid⟩
  · intro herr
    by_contra hlen
    exact herr (GetRates_enough c pid (by omega))
  · intro hlen
    rw [GetRates_short c pid hlen]
    simp
  · intro hnone
    exact GetRates_short c pid (by rw [hnone]; simp)

/-- C9 at a PID without history and at a PID with two samples. -/
theorem C9_GetRates_fails_iff_fewer_than_two_witness :
    risingHistory.GetRates 2 = (0, 0, some (.insufficientSamples 2))
    ∧ (risingHistory.GetRates 1).2.2 = none :=
  ⟨(C9_GetRates_fails_iff_fewer_than_two risingHistory 2).2.2.1 rfl,
   (C9_GetRates_fails_iff_fewer_than_two risingHistory 1).2.2.2 (by decide)⟩

end collector

/-! ## AddProcess on a bad PID -/

namespace process

/-- C10: when `pidText` does not parse as a 32-bit decimal integer, or parses to a PID
whose `/proc/<pid>/comm` cannot be read, `AddProcess` returns an error and the registry
is left exactly as it was: no entry is added, replaced or removed. -/
theorem C10_AddProcess_failure_keeps_registry (m : Monitor) (readComm : Int → Option String)
    (now : Int) (pidText : String)
    (hbad : (∃ e, strconv.ParseInt32 pidText = .error e)
      ∨ (∃ pid, strconv.ParseInt32 pidText = .ok pid ∧ readComm pid = none)) :
    (m.AddProcess readComm now pidText).2 ≠ none
      ∧ (m.AddProcess readComm now pidText).1 = m
      ∧ (m.AddProcess readComm now pidText).1.pids = m.pids := by
  rcases hbad with ⟨e, he⟩ | ⟨pid, hp, hr⟩
  · simp [Monitor.AddProcess, he]
  · simp [Monitor.AddProcess, hp, getProcessName, hr]

/-- C10 at a malformed PID text and at a PID whose process cannot be read. -/
theorem C10_AddProcess_failure_keeps_registry_witness :
    ((collector.registryOfOne.AddProcess (fun _ => some "bash") 5 "12a").2 ≠ none
      ∧ (collector.registryOfOne.AddProcess (fun _ => some "bash") 5 "12a").1
          = collector.registryOfOne
      ∧ (collector.registryOfOne.AddProcess (fun _ => some "bash") 5 "12a").1.pids
          = collector.registryOfOne.pids)
    ∧ ((collector.registryOfOne.AddProcess (fun _ => none) 5 "1").2 ≠ none
      ∧ (collector.registryOfOne.AddProcess (fun _ => none) 5 "1").1
          = collector.registryOfOne
      ∧ (collector.registryOfOne.AddProcess (fun _ => none) 5 "1").1.pids
          = collector.registryOfOne.pids) :=
  ⟨C10_AddProcess_failure_keeps_registry collector.registryOfOne (fun _ => some "bash") 5 "12a"
      (Or.inl ⟨.ErrSyntax, rfl⟩),
   C10_AddProcess_failure_keeps_registry collector.registryOfOne (fun _ => none) 5 "1"
      (Or.inr ⟨1, rfl, rfl⟩)⟩

end process

/-! ## Removal from the registry -/

theorem not_mem_keys_mapDelete {κ ν : Type} [DecidableEq κ] (m : List (κ × ν)) (k : κ) :
    k ∉ mapKeys (mapDelete m k) := by
  induction m with
  | nil => simp [mapDelete, mapKeys]
  | cons kv rest ih =>
    obtain ⟨k1, v1⟩ := kv
    by_cases h : k1 = k
    · simpa [mapDelete, h] using ih
    · simp only [mapKeys] at ih
      simp only [mapDelete, h, if_false, mapKeys, List.map_cons, List.mem_cons, not_or]
      exact ⟨fun e => h e.symm, ih⟩

theorem mem_keys_of_mem_mapDelete {κ ν : Type} [DecidableEq κ] (m : List (κ × ν)) (k q : κ)
    (hq : q ∈ mapKeys (mapDelete m k)) : q ∈ mapKeys m := by
  induction m with
  | nil => simp [mapDelete, mapKeys] at hq
  | cons kv rest ih =>
    obtain ⟨k1, v1⟩ := kv
    simp only [mapKeys] at ih
    by_cases h : k1 = k
    · simp only [mapDelete, h, if_true] at hq
      simp only [mapKeys, List.map_cons, List.mem_cons]
      exact Or.inr (ih hq)
    · simp only [mapDelete, h, if_false, mapKeys, List.map_cons, List.mem_cons] at hq
      simp only [mapKeys, List.map_cons, List.mem_cons]
      rcases hq with e | e
      · exact Or.inl e
      · exact Or.inr (ih e)

theorem mapGet_mapDelete_of_ne {κ ν : Type} [DecidableEq κ] (m : List (κ × ν)) (k q : κ)
    (hne : q ≠ k) : mapGet (mapDelete m k) q = mapGet m q := by
  induction m with
  | nil => simp [mapDelete]
  | cons kv rest ih =>
    obtain ⟨k1, v1⟩ := kv
    by_cases h : k1 = k
    · subst h
      have : ¬ k1 = q := fun e => hne e.symm
      simp [mapDelete, mapGet, this, ih]
    · by_cases h2 : k1 = q
      · subst h2
        simp [mapDelete, mapGet, h]
      · simp [mapDelete, mapGet, h, h2, ih]

theorem mapDelete_of_not_mem {κ ν : Type} [DecidableEq κ] (m : List (κ × ν)) (k : κ)
    (hk : k ∉ mapKeys m) : mapDelete m k = m := by
  induction m with
  | nil => simp [mapDelete]
  | cons kv rest ih =>
    obtain ⟨k1, v1⟩ := kv
    simp only [mapKeys, List.map_cons, List.mem_cons, not_or] at hk
    have h : ¬ k1 = k := fun e => hk.1 e.symm
    have hrest : k ∉ mapKeys rest := by simpa only [mapKeys] using hk.2
    simp [mapDelete, h, ih hrest]

theorem mapGet_eq_none_of_not_mem {κ ν : Type} [DecidableEq κ] (m : List (κ × ν)) (k : κ)
    (hk : k ∉ mapKeys m) : mapGet m k = none := by
  cases h : mapGet m k with
  | none => rfl
  | some v => exact absurd (mem_keys_of_mapGet m k v h) hk

theorem not_mem_keys_sweep {κ ν : Type} [DecidableEq κ] (bad : κ → Bool) (p : κ)
    (hp : bad p = true) (ks : List κ) :
    ∀ acc : List (κ × ν), (p ∈ mapKeys acc → p ∈ ks) →
      p ∉ mapKeys (ks.foldl (fun pids pid => if bad pid then mapDelete pids pid else pids) acc) := by
  induction ks with
  | nil =>
    intro acc h hmem
    exact absurd (h hmem) (by simp)
  | cons k rest ih =>
    intro acc h
    rw [List.foldl_cons]
    apply ih
    intro hmem
    by_cases hk : k = p
    · subst hk
      rw [hp] at hmem
      exact absurd hmem (not_mem_keys_mapDelete acc k)
    · have hacc : p ∈ mapKeys acc := by
        by_cases hb : bad k = true
        · rw [if_pos hb] at hmem
          exact mem_keys_of_mem_mapDelete acc k p hmem
        · rw [if_neg hb] at hmem
          exact hmem
      rcases List.mem_cons.mp (h hacc) with e | e
      · exact absurd e.symm hk
      · exact e

namespace process

theorem checkProcesses_pids (m : Monitor) (readComm : Int → Option String) :
    (m.checkProcesses readComm).pids
      = (mapKeys m.pids).foldl
          (fun pids pid =>
            if (getProcessName readComm pid).isNone then mapDelete pids pid else pids)
          m.pids := by
  unfold Monitor.checkProcesses
  simp only
  congr 1
  funext pids pid
  cases getProcessName readComm pid <;> simp

theorem GetProcessStats_of_not_mem (m : Monitor) (p : Int) (h : p ∉ mapKeys m.pids) :
    m.GetProcessStats p = .error (.notMonitored p) := by
  simp [Monitor.GetProcessStats, mapGet_eq_none_of_not_mem m.pids p h]

/-- C11: after `RemoveProcess(p)`, and after a liveness sweep `checkProcesses` in which the
name of `p` cannot be read, `p` is not in `GetMonitoredPIDs()` and `GetProcessStats(p)`
fails with the not-monitored error; `RemoveProcess` of an absent PID leaves the registry
as it was, and `RemoveProcess(p)` keeps the entry of every other PID unchanged. -/
theorem C11_removed_pid_is_not_monitored (m : Monitor) (p : Int)
    (readComm : Int → Option String) :
    (p ∉ (m.RemoveProcess p).GetMonitoredPIDs
      ∧ (m.RemoveProcess p).GetProcessStats p = .error (.notMonitored p))
    ∧ (getProcessName readComm p = none →
        p ∉ (m.checkProcesses readComm).GetMonitoredPIDs
        ∧ (m.checkProcesses readComm).GetProcessStats p = .error (.notMonitored p))
    ∧ (p ∉ m.GetMonitoredPIDs → m.RemoveProcess p = m)
    ∧ (∀ q, q ≠ p → (m.RemoveProcess p).GetProcessStats q = m.GetProcessStats q) := by
  have hrem : p ∉ mapKeys (m.RemoveProcess p).pids := not_mem_keys_mapDelete m.pids p
  refine ⟨⟨hrem, GetProcessStats_of_not_mem _ p hrem⟩, ?_, ?_, ?_⟩
  · intro hbad
    have hsweep : p ∉ mapKeys (m.checkProcesses readComm).pids := by
      rw [checkProcesses_pids]
      exact not_mem_keys_sweep (fun pid => (getProcessName readComm pid).isNone) p
        (by simp [hbad]) (mapKeys m.pids) m.pids id
    exact ⟨hsweep, GetProcessStats_of_not_mem _ p hsweep⟩
  · intro habsent
    have : mapDelete m.pids p = m.pids := mapDelete_of_not_mem m.pids p habsent
    simp [Monitor.RemoveProcess, this]
  · intro q hq
    simp only [Monitor.GetProcessStats, Monitor.RemoveProcess,
      mapGet_mapDelete_of_ne m.pids p q hq]

/-- C11 at a registry monitoring PID 1 only: a sweep in which no name can be read evicts
PID 1, and removing the absent PID 7 changes nothing. -/
theorem C11_removed_pid_is_not_monitored_witness :
    ((1 : Int) ∉ (collector.registryOfOne.checkProcesses fun _ => none).GetMonitoredPIDs
      ∧ (collector.registryOfOne.checkProcesses fun _ => none).GetProcessStats 1
          = .error (.notMonitored 1))
    ∧ collector.registryOfOne.RemoveProcess 7 = collector.registryOfOne :=
  ⟨(C11_removed_pid_is_not_monitored collector.registryOfOne 1 (fun _ => none)).2.1 rfl,
   (C11_removed_pid_is_not_monitored collector.registryOfOne 7 (fun _ => none)).2.2.1
      (by decide)⟩

/-! ## UpdateStats on the registry -/

/-- C12: `UpdateStats(pid, stats)` fails, with the not-monitored error, exactly when `pid`
is not in the registry, and the registry is then unchanged; otherwise it returns no
error, the record of `pid` becomes its `Update(stats)`, and every other PID's record and
the key set stay as they were. -/
theorem C12_UpdateStats_contract (m : Monitor) (pid : Int) (stats : types.NetworkStats) :
    ((m.UpdateStats pid stats).2 ≠ none ↔ pid ∉ m.GetMonitoredPIDs)
    ∧ (pid ∉ m.GetMonitoredPIDs →
        (m.UpdateStats pid stats).2 = some (.notMonitored pid)
        ∧ (m.UpdateStats pid stats).1 = m)
    ∧ (∀ ps, m.GetProcessStats pid = .ok ps →
        (m.UpdateStats pid stats).2 = none
        ∧ (m.UpdateStats pid stats).1.GetProcessStats pid = .ok (ps.Update stats))
    ∧ (∀ q, q ≠ pid →
        (m.UpdateStats pid stats).1.GetProcessStats q = m.GetProcessStats q)
    ∧ (m.UpdateStats pid stats).1.GetMonitoredPIDs = m.GetMonitoredPIDs := by
  have habsent : pid ∉ m.GetMonitoredPIDs →
      (m.UpdateStats pid stats).2 = some (.notMonitored pid)
        ∧ (m.UpdateStats pid stats).1 = m := by
    intro h
    have hg : mapGet m.pids pid = none := mapGet_eq_none_of_not_mem m.pids pid h
    simp [Monitor.UpdateStats, hg]
  refine ⟨⟨?_, ?_⟩, habsent, ?_, ?_, UpdateStats_keys m pid stats⟩
  · intro herr
    intro hmem
    obtain ⟨ps, hps⟩ := mapGet_isSome_of_mem_keys m.pids pid hmem
    simp [Monitor.UpdateStats, hps] at herr
  · intro h
    rw [(habsent h).1]
    simp
  · intro ps hps
    have hg : mapGet m.pids pid = some ps := by
      cases hget : mapGet m.pids pid with
      | none => simp [Monitor.GetProcessStats, hget] at hps
      | some ps1 =>
        simp only [Monitor.GetProcessStats, hget, Except.ok.injEq] at hps
        rw [hps]
    constructor
    · simp [Monitor.UpdateStats, hg]
    · have := UpdateStats_get_self m pid stats
      simp only [Monitor.GetProcessStats, this, hg, Option.map_some']
  · intro q hq
    simp only [Monitor.GetProcessStats, UpdateStats_get_of_ne m pid q stats (Ne.symm hq)]

/-- C12 at a registry monitoring PID 1 only: an update for PID 7 fails and changes nothing,
an update for PID 1 is applied to its record. -/
theorem C12_UpdateStats_contract_witness :
    ((collector.registryOfOne.UpdateStats 7 (types.bytesOnly 1000 2000)).2
        = some (.notMonitored 7)
      ∧ (collector.registryOfOne.UpdateStats 7 (types.bytesOnly 1000 2000)).1
        = collector.registryOfOne)
    ∧ ((collector.registryOfOne.UpdateStats 1 (types.bytesOnly 1000 2000)).2 = none
      ∧ (collector.registryOfOne.UpdateStats 1 (types.bytesOnly 1000 2000)).1.GetProcessStats 1
        = .ok ((types.NewProcessStats 1 "test-process" 0).Update (types.bytesOnly 1000 2000))) :=
  ⟨(C12_UpdateStats_contract collector.registryOfOne 7 (types.bytesOnly 1000 2000)).2.1
      (by decide),
   (C12_UpdateStats_contract collector.registryOfOne 1 (types.bytesOnly 1000 2000)).2.2.1
      (types.NewProcessStats 1 "test-process" 0) rfl⟩

end process

/-! ## Update: the current snapshot and the growth of the totals -/

namespace types

/-- C13: after `Update(stats)`, the `Current` returned by `GetStats` is exactly the supplied
`stats`, with every counter, rate and connection-count field; its connection map is the
supplied one, so every key reads the same connection descriptor. -/
theorem C13_Update_sets_current (ps : ProcessStats) (stats : NetworkStats) :
    (ps.Update stats).GetStats.1 = stats
    ∧ (ps.Update stats).GetStats.1.ActiveConns = stats.ActiveConns
    ∧ (∀ (conns : List (String × ConnectionInfo)) (key : String) (conn : ConnectionInfo),
        stats.ActiveConns = some conns → mapGet conns key = some conn →
        ∃ current, (ps.Update stats).GetStats.1.ActiveConns = some current
          ∧ current.length = conns.length ∧ mapGet current key = some conn) := by
  refine ⟨rfl, rfl, ?_⟩
  intro conns key conn hc hk
  exact ⟨conns, hc, rfl, hk⟩

/-- C13 at the data of the repository test `TestConnectionInfo`: one connection `conn1`. -/
theorem C13_Update_sets_current_witness :
    ∃ current,
      ((NewProcessStats 1234 "test-process" 0).Update collector.testConnStats
          ).GetStats.1.ActiveConns = some current
        ∧ current.length = [("conn1", collector.testConn)].length
        ∧ mapGet current "conn1" = some collector.testConn :=
  (C13_Update_sets_current (NewProcessStats 1234 "test-process" 0) collector.testConnStats).2.2
    [("conn1", collector.testConn)] "conn1" collector.testConn rfl (by decide)

/-- C14, as stated, fails: a record whose `Total.BytesIn` is `2 ^ 63`, updated with another
`2 ^ 63` bytes in, has `Total.BytesIn = 0` afterwards, which is below its value before. -/
theorem C14_counterexample :
    ((NewProcessStats 1234 "test-process" 0).Update (bytesOnly (2 ^ 63) 0)
        ).GetStats.2.2.BytesIn = 2 ^ 63
    ∧ (((NewProcessStats 1234 "test-process" 0).Update (bytesOnly (2 ^ 63) 0)).Update
        (bytesOnly (2 ^ 63) 0)).GetStats.2.2.BytesIn = 0
    ∧ ¬ (((NewProcessStats 1234 "test-process" 0).Update (bytesOnly (2 ^ 63) 0)
          ).GetStats.2.2.BytesIn
        ≤ (((NewProcessStats 1234 "test-process" 0).Update (bytesOnly (2 ^ 63) 0)).Update
            (bytesOnly (2 ^ 63) 0)).GetStats.2.2.BytesIn) := by
  decide

/-- C14 (amended): across an `Update` call, `Total.BytesIn` and `Total.BytesOut` become
their value before the call plus the supplied value, modulo `2 ^ 64`.  With counters
below `2 ^ 64`, the total after the call is greater than or equal to the total before
exactly when that sum does not reach `2 ^ 64`. -/
theorem C14_total_grows_unless_it_wraps (ps : ProcessStats) (stats : NetworkStats) :
    ((ps.Update stats).GetStats.2.2.BytesIn
        = (ps.GetStats.2.2.BytesIn + stats.BytesIn) % 2 ^ 64
      ∧ (ps.Update stats).GetStats.2.2.BytesOut
        = (ps.GetStats.2.2.BytesOut + stats.BytesOut) % 2 ^ 64)
    ∧ (ps.GetStats.2.2.BytesIn + stats.BytesIn < 2 ^ 64 →
        ps.GetStats.2.2.BytesIn ≤ (ps.Update stats).GetStats.2.2.BytesIn)
    ∧ (ps.GetStats.2.2.BytesOut + stats.BytesOut < 2 ^ 64 →
        ps.GetStats.2.2.BytesOut ≤ (ps.Update stats).GetStats.2.2.BytesOut)
    ∧ (ps.GetStats.2.2.BytesIn < 2 ^ 64 → stats.BytesIn < 2 ^ 64 →
        (ps.GetStats.2.2.BytesIn ≤ (ps.Update stats).GetStats.2.2.BytesIn
          ↔ ps.GetStats.2.2.BytesIn + stats.BytesIn < 2 ^ 64))
    ∧ (ps.GetStats.2.2.BytesOut < 2 ^ 64 → stats.BytesOut < 2 ^ 64 →
        (ps.GetStats.2.2.BytesOut ≤ (ps.Update stats).GetStats.2.2.BytesOut
          ↔ ps.GetStats.2.2.BytesOut + stats.BytesOut < 2 ^ 64)) := by
  have hin : (ps.Update stats).GetStats.2.2.BytesIn
      = (ps.GetStats.2.2.BytesIn + stats.BytesIn) % 2 ^ 64 := rfl
  have hout : (ps.Update stats).GetStats.2.2.BytesOut
      = (ps.GetStats.2.2.BytesOut + stats.BytesOut) % 2 ^ 64 := rfl
  refine ⟨⟨hin, hout⟩, ?_, ?_, ?_, ?_⟩
  · intro h
    rw [hin]; omega
  · intro h
    rw [hout]; omega
  · intro h1 h2
    rw [hin]; omega
  · intro h1 h2
    rw [hout]; omega

/-- C14 at the values of the repository test: a total of 1000 bytes in grows to 3000. -/
theorem C14_total_grows_unless_it_wraps_witness :
    ((NewProcessStats 1234 "test-process" 0).Update (bytesOnly 1000 2000)).GetStats.2.2.BytesIn
      ≤ (((NewProcessStats 1234 "test-process" 0).Update (bytesOnly 1000 2000)).Update
          (bytesOnly 2000 4000)).GetStats.2.2.BytesIn :=
  (C14_total_grows_unless_it_wraps
    ((NewProcessStats 1234 "test-process" 0).Update (bytesOnly 1000 2000))
    (bytesOnly 2000 4000)).2.1 (by decide)

/-! ## FormatRate -/

theorem sprintf2f_natCast (n : Nat) : sprintf2f (n : Rat) = toString n ++ ".00" := by
  have hnn : (0 : Rat) ≤ (n : Rat) := Nat.cast_nonneg n
  have habs : |(n : Rat)| * 100 = ((n * 100 : Nat) : Rat) := by
    rw [abs_of_nonneg hnn]; push_cast; ring
  have hfloor : (((n * 100 : Nat) : Rat)).floor.toNat = n * 100 := by
    show (⌊((n * 100 : Nat) : Rat)⌋).toNat = n * 100
    rw [Int.floor_natCast]
    omega
  have hneg : ¬ (n : Rat) < 0 := not_lt.mpr hnn
  unfold sprintf2f
  simp only [habs, hfloor, sub_self, hneg, if_false]
  have h12 : (0 : Rat) < 1 / 2 := by norm_num
  simp only [h12, if_true, Nat.mul_div_cancel _ (by decide : 0 < 100), Nat.mul_mod_left]
  have h00 : twoDigits 0 = "00" := by decide
  rw [h00, String.empty_append, String.append_assoc]
  rfl

theorem FormatRate_scaled (r : Rat) :
    ((GB : Rat) ≤ r → FormatRate r = sprintf2f (r / (GB : Rat)) ++ " Gbps")
    ∧ ((MB : Rat) ≤ r → r < (GB : Rat) → FormatRate r = sprintf2f (r / (MB : Rat)) ++ " Mbps")
    ∧ ((KB : Rat) ≤ r → r < (MB : Rat) → FormatRate r = sprintf2f (r / (KB : Rat)) ++ " Kbps")
    ∧ (r < (KB : Rat) → FormatRate r = sprintf2f (r * 8) ++ " bps") := by
  have e : ∀ u : Rat, u ≠ 0 → r * 8 / (u * 8) = r / u := by
    intro u hu
    field_simp
    ring
  have hG : (GB : Rat) ≠ 0 := by norm_num [GB]
  have hM : (MB : Rat) ≠ 0 := by norm_num [MB]
  have hK : (KB : Rat) ≠ 0 := by norm_num [KB]
  have hKM : (KB : Rat) < (MB : Rat) := by norm_num [KB, MB]
  have hMG : (MB : Rat) < (GB : Rat) := by norm_num [MB, GB]
  refine ⟨?_, ?_, ?_, ?_⟩
  · intro h
    simp only [FormatRate, ge_iff_le, h, if_true, e _ hG]
  · intro h1 h2
    simp only [FormatRate, ge_iff_le, not_le.mpr h2, if_false, h1, if_true, e _ hM]
  · intro h1 h2
    have h3 : r < (GB : Rat) := lt_trans h2 hMG
    simp only [FormatRate, ge_iff_le, not_le.mpr h3, not_le.mpr h2, if_false, h1, if_true,
      e _ hK]
  · intro h1
    have h2 : r < (MB : Rat) := lt_trans h1 hKM
    have h3 : r < (GB : Rat) := lt_trans h2 hMG
    simp only [FormatRate, ge_iff_le, not_le.mpr h3, not_le.mpr h2, not_le.mpr h1, if_false]

/-- C16 fails on the code: in the Kbps, Mbps and Gbps branches `FormatRate` divides the bit
rate by eight times the unit, so it prints the byte rate over the unit.  It returns
"128.00 Kbps" for 128 KiB/s, "1.00 Mbps" for 1 MiB/s and "128.00 Mbps" for 128 MiB/s,
where the repository test expects "1024.00 Kbps", "8.00 Mbps" and "1024.00 Mbps";
only the bps branch prints eight times the rate. -/
theorem C16_FormatRate_prints_bytes_over_unit :
    FormatRate 500 = "4000.00 bps"
    ∧ FormatRate 131072 = "128.00 Kbps"
    ∧ FormatRate 1048576 = "1.00 Mbps"
    ∧ FormatRate 134217728 = "128.00 Mbps"
    ∧ FormatRate 131072 ≠ "1024.00 Kbps"
    ∧ FormatRate 1048576 ≠ "8.00 Mbps"
    ∧ FormatRate 134217728 ≠ "1024.00 Mbps" := by
  have h1 : FormatRate 500 = "4000.00 bps" := by
    have h : FormatRate 500 = sprintf2f ((4000 : Nat) : Rat) ++ " bps" := by
      rw [(FormatRate_scaled 500).2.2.2 (by norm_num [KB])]
      norm_num
    rw [h, sprintf2f_natCast]
    rfl
  have h2 : FormatRate 131072 = "128.00 Kbps" := by
    have h : FormatRate 131072 = sprintf2f ((128 : Nat) : Rat) ++ " Kbps" := by
      rw [(FormatRate_scaled 131072).2.2.1 (by norm_num [KB]) (by norm_num [MB])]
      norm_num [KB]
    rw [h, sprintf2f_natCast]
    rfl
  have h3 : FormatRate 1048576 = "1.00 Mbps" := by
    have h : FormatRate 1048576 = sprintf2f ((1 : Nat) : Rat) ++ " Mbps" := by
      rw [(FormatRate_scaled 1048576).2.1 (by norm_num [MB]) (by norm_num [GB])]
      norm_num [MB]
    rw [h, sprintf2f_natCast]
    rfl
  have h4 : FormatRate 134217728 = "128.00 Mbps" := by
    have h : FormatRate 134217728 = sprintf2f ((128 : Nat) : Rat) ++ " Mbps" := by
      rw [(FormatRate_scaled 134217728).2.1 (by norm_num [MB]) (by norm_num [GB])]
      norm_num [MB]
    rw [h, sprintf2f_natCast]
    rfl
  refine ⟨h1, h2, h3, h4, ?_, ?_, ?_⟩
  · rw [h2]; decide
  · rw [h3]; decide
  · rw [h4]; decide

end types

/-! ## The probe manager: clearing an entry and stopping -/

namespace bpf

theorem Stop_keeps_lookups (nm : NetworkMonitor) (pid : Nat) :
    nm.Stop.1.GetProcessStats pid = nm.GetProcessStats pid ∧ nm.Stop.2 = none :=
  ⟨rfl, rfl⟩

theorem ClearProcessStats_missing (nm : NetworkMonitor) (pid : Nat)
    (h : nm.Lookup pid = .keyNotExist) :
    (nm.ClearProcessStats pid).2 = some .keyNotExist := by
  simp [NetworkMonitor.ClearProcessStats, Delete, h]

theorem ClearProcessStats_present (nm : NetworkMonitor) (pid : Nat) (v : netmonNetworkStats)
    (h : nm.Lookup pid = .found v) :
    (nm.ClearProcessStats pid).2 = none
      ∧ (nm.ClearProcessStats pid).1.Lookup pid = .keyNotExist := by
  simp [NetworkMonitor.ClearProcessStats, Delete, h]

/-- C15 fails on the code for a PID without entry: `ClearProcessStats(1)` on a counter table
that has no entry for PID 1 returns the key-does-not-exist error of the table's `Delete`;
on a table holding an entry for PID 1 it removes the entry and returns no error. -/
theorem C15_clear_of_missing_entry_is_an_error :
    (collector.emptyTable.ClearProcessStats 1).2 = some .keyNotExist
    ∧ (collector.emptyTable.ClearProcessStats 1).2 ≠ none
    ∧ (collector.tableOfOne.ClearProcessStats 1).2 = none
    ∧ (collector.tableOfOne.ClearProcessStats 1).1.Lookup 1 = .keyNotExist := by
  have h1 := ClearProcessStats_missing collector.emptyTable 1 rfl
  have h2 := ClearProcessStats_present collector.tableOfOne 1 (collector.rawBytesIn 10) rfl
  refine ⟨h1, ?_, h2.1, h2.2⟩
  rw [h1]
  simp

/-- C19 fails on the code: `Stop` closes the two program handles and leaves the table
handles as they are, so a lookup that succeeded before `Stop` succeeds after it;
`GetProcessStats(1)` still returns the entry of PID 1.  `Stop` returns no error, also
when called a second time. -/
theorem C19_lookup_succeeds_after_Stop :
    collector.tableOfOne.Stop.1.programs = some { TcEgress := false, TcIngress := false }
    ∧ collector.tableOfOne.Stop.1.GetProcessStats 1
        = collector.tableOfOne.GetProcessStats 1
    ∧ (∃ stats, collector.tableOfOne.Stop.1.GetProcessStats 1 = .ok (some stats)
        ∧ stats.BytesIn = 10)
    ∧ collector.tableOfOne.Stop.2 = none
    ∧ collector.tableOfOne.Stop.1.Stop.2 = none :=
  ⟨rfl, rfl, ⟨_, rfl, rfl⟩, rfl, rfl⟩

end bpf

/-! ## A tick over PIDs with and without table entry, and stopping twice -/

namespace collector

/-- C18, as stated, fails: on a collector and on a registry that have been stopped once, a
second `Stop` panics, because it closes a channel that is already closed. -/
theorem C18_counterexample :
    (∃ c1, (New { SampleInterval := 0, WindowSize := 0, Continuous := true }).Stop = some c1
      ∧ c1.Stop = none)
    ∧ (∃ m1, process.New.Stop = some m1 ∧ m1.Stop = none) :=
  ⟨⟨_, rfl, rfl⟩, ⟨_, rfl, rfl⟩⟩

/-- C18 (amended): `Stop` is one-shot, for the Collector and for the process Monitor.
Called on a component that has not been stopped it does not fail, closes the stop
channel and changes nothing else; called on a stopped component, so also a second time,
it panics. -/
theorem C18_Stop_is_one_shot (c : Collector) (m : process.Monitor) :
    (c.stopped = false →
      ∃ c1, c.Stop = some c1 ∧ c1.stopped = true ∧ c1.config = c.config
        ∧ c1.samples = c.samples ∧ c1.Stop = none)
    ∧ (m.stopped = false →
      ∃ m1, m.Stop = some m1 ∧ m1.stopped = true ∧ m1.pids = m.pids ∧ m1.Stop = none)
    ∧ (c.stopped = true → c.Stop = none)
    ∧ (m.stopped = true → m.Stop = none) := by
  refine ⟨?_, ?_, ?_, ?_⟩
  · intro h
    exact ⟨{ c with stopped := true }, by simp [Collector.Stop, h], rfl, rfl, rfl, rfl⟩
  · intro h
    exact ⟨{ m with stopped := true }, by simp [process.Monitor.Stop, h], rfl, rfl, rfl⟩
  · intro h
    simp [Collector.Stop, h]
  · intro h
    simp [process.Monitor.Stop, h]

/-- C18 at a freshly built collector and registry. -/
theorem C18_Stop_is_one_shot_witness :
    (∃ c1, (New { SampleInterval := 0, WindowSize := 0, Continuous := true }).Stop = some c1
      ∧ c1.stopped = true
      ∧ c1.config = (New { SampleInterval := 0, WindowSize := 0, Continuous := true }).config
      ∧ c1.samples = (New { SampleInterval := 0, WindowSize := 0, Continuous := true }).samples
      ∧ c1.Stop = none)
    ∧ (∃ m1, process.New.Stop = some m1 ∧ m1.stopped = true ∧ m1.pids = process.New.pids
      ∧ m1.Stop = none) :=
  ⟨(C18_Stop_is_one_shot (New { SampleInterval := 0, WindowSize := 0, Continuous := true })
      process.New).1 rfl,
   (C18_Stop_is_one_shot (New { SampleInterval := 0, WindowSize := 0, Continuous := true })
      process.New).2.1 rfl⟩

end collector

end Procnetmon
